import Mathlib

/-!
Verification development for the pyytlounge YouTube Lounge client.

The definitions below are a shallow embedding of `src/pyytlounge` (wrapper.py,
models.py, events.py, exceptions.py, util.py).  Python objects decoded from
JSON (dict / list / str / int / bool / None) are modelled by the inductive
type `JValue`; `JValue.jnull` stands for Python `None`.  Fallible Python code
(code that can raise) is modelled with `Except PyErr`.  Stateful methods of
`YtLoungeApi` become explicit state-passing functions over `ClientState`;
calls to the event listener and the mutating helpers `_connection_lost` /
`_lounge_token_expired` additionally record an `Action` so that dispatch
order is observable.

JSON numbers are modelled as integers: on this wire protocol the only JSON
numbers are event ids; every fractional quantity travels as a string and is
converted with `float(...)`, modelled by exact rationals.
-/

namespace PyYt

/-- Model of a Python value as produced by `json.loads`: `None`, booleans,
integers, strings, lists and dicts (dicts as ordered association lists). -/
inductive JValue where
  | jnull
  | jbool (b : Bool)
  | jnum (n : Int)
  | jstr (s : String)
  | jarr (xs : List JValue)
  | jobj (fields : List (String × JValue))
deriving Repr, Inhabited

mutual

/-- Decidable structural equality for `JValue` (Python `==` on JSON
values). -/
def decEqJ : (a b : JValue) → Decidable (a = b)
  | .jnull, .jnull => isTrue rfl
  | .jbool a, .jbool b =>
    if h : a = b then isTrue (by rw [h]) else isFalse (fun he => h (by cases he; rfl))
  | .jnum a, .jnum b =>
    if h : a = b then isTrue (by rw [h]) else isFalse (fun he => h (by cases he; rfl))
  | .jstr a, .jstr b =>
    if h : a = b then isTrue (by rw [h]) else isFalse (fun he => h (by cases he; rfl))
  | .jarr a, .jarr b =>
    (match decEqArrJ a b with
     | isTrue h => isTrue (by rw [h])
     | isFalse h => isFalse (fun he => h (by cases he; rfl)))
  | .jobj a, .jobj b =>
    (match decEqObjJ a b with
     | isTrue h => isTrue (by rw [h])
     | isFalse h => isFalse (fun he => h (by cases he; rfl)))
  | .jnull, .jbool _ => isFalse (by simp)
  | .jnull, .jnum _ => isFalse (by simp)
  | .jnull, .jstr _ => isFalse (by simp)
  | .jnull, .jarr _ => isFalse (by simp)
  | .jnull, .jobj _ => isFalse (by simp)
  | .jbool _, .jnull => isFalse (by simp)
  | .jbool _, .jnum _ => isFalse (by simp)
  | .jbool _, .jstr _ => isFalse (by simp)
  | .jbool _, .jarr _ => isFalse (by simp)
  | .jbool _, .jobj _ => isFalse (by simp)
  | .jnum _, .jnull => isFalse (by simp)
  | .jnum _, .jbool _ => isFalse (by simp)
  | .jnum _, .jstr _ => isFalse (by simp)
  | .jnum _, .jarr _ => isFalse (by simp)
  | .jnum _, .jobj _ => isFalse (by simp)
  | .jstr _, .jnull => isFalse (by simp)
  | .jstr _, .jbool _ => isFalse (by simp)
  | .jstr _, .jnum _ => isFalse (by simp)
  | .jstr _, .jarr _ => isFalse (by simp)
  | .jstr _, .jobj _ => isFalse (by simp)
  | .jarr _, .jnull => isFalse (by simp)
  | .jarr _, .jbool _ => isFalse (by simp)
  | .jarr _, .jnum _ => isFalse (by simp)
  | .jarr _, .jstr _ => isFalse (by simp)
  | .jarr _, .jobj _ => isFalse (by simp)
  | .jobj _, .jnull => isFalse (by simp)
  | .jobj _, .jbool _ => isFalse (by simp)
  | .jobj _, .jnum _ => isFalse (by simp)
  | .jobj _, .jstr _ => isFalse (by simp)
  | .jobj _, .jarr _ => isFalse (by simp)

/-- Decidable elementwise equality for lists of `JValue`. -/
def decEqArrJ : (xs ys : List JValue) → Decidable (xs = ys)
  | [], [] => isTrue rfl
  | [], _ :: _ => isFalse (by simp)
  | _ :: _, [] => isFalse (by simp)
  | x :: xs, y :: ys =>
    (match decEqJ x y with
     | isTrue h1 =>
       (match decEqArrJ xs ys with
        | isTrue h2 => isTrue (by rw [h1, h2])
        | isFalse h2 => isFalse (fun he => h2 (by cases he; rfl)))
     | isFalse h1 => isFalse (fun he => h1 (by cases he; rfl)))

/-- Decidable elementwise equality for object member lists. -/
def decEqObjJ : (ms ns : List (String × JValue)) → Decidable (ms = ns)
  | [], [] => isTrue rfl
  | [], _ :: _ => isFalse (by simp)
  | _ :: _, [] => isFalse (by simp)
  | (k, v) :: ms, (l, w) :: ns =>
    if hk : k = l then
      (match decEqJ v w with
       | isTrue h1 =>
         (match decEqObjJ ms ns with
          | isTrue h2 => isTrue (by rw [hk, h1, h2])
          | isFalse h2 => isFalse (fun he => h2 (by cases he; rfl)))
       | isFalse h1 => isFalse (fun he => h1 (by cases he; rfl)))
    else isFalse (fun he => hk (by cases he; rfl))

end

instance : DecidableEq JValue := decEqJ


/-- Exceptions the embedded code can raise.  The first five model Python
builtins, the rest the library's own exception classes (exceptions.py) and
the aiohttp error raised by `resp.raise_for_status()`. -/
inductive PyErr where
  | valueError (msg : String)
  | keyError (key : String)
  | indexError (msg : String)
  | typeError (msg : String)
  | jsonDecodeError
  | attributeError (msg : String)
  | notConnected (msg : String)
  | notPaired (msg : String)
  | notLinked (msg : String)
  | notSupported (msg : String)
  | httpError (status : Int)
deriving Repr, DecidableEq

/-- Exception classes defined by src/pyytlounge/exceptions.py. -/
def exceptions_module_classes : List String :=
  ["NotConnectedException", "NotPairedException", "NotLinkedException",
   "NotSupportedException"]

/-! ## Decimal printing and parsing (models of `str`/`int` round-trips) -/

/-- Lower-case hex digit for a value below 16. -/
def hexDigitChar (n : Nat) : Char :=
  if n < 10 then Char.ofNat (48 + n) else Char.ofNat (87 + n)

/-- Decimal digits (most significant first) of a natural number. -/
def decDigits (n : Nat) : List Nat :=
  if _h : n < 10 then [n]
  else decDigits (n / 10) ++ [n % 10]
decreasing_by exact Nat.div_lt_self (by omega) (by omega)

/-- Decimal character representation of a natural number. -/
def natToDecChars (n : Nat) : List Char :=
  (decDigits n).map (fun d => Char.ofNat (48 + d))

/-- Decimal character representation of an integer (with a leading minus
sign when negative). -/
def intToDecChars (i : Int) : List Char :=
  if i < 0 then '-' :: natToDecChars i.natAbs else natToDecChars i.natAbs

/-- Value of a decimal digit character, if it is one. -/
def digitVal? (c : Char) : Option Nat :=
  if 48 ≤ c.toNat ∧ c.toNat ≤ 57 then some (c.toNat - 48) else none

/-- Value of a hex digit character (lower or upper case), if it is one. -/
def hexVal? (c : Char) : Option Nat :=
  if 48 ≤ c.toNat ∧ c.toNat ≤ 57 then some (c.toNat - 48)
  else if 97 ≤ c.toNat ∧ c.toNat ≤ 102 then some (c.toNat - 87)
  else if 65 ≤ c.toNat ∧ c.toNat ≤ 70 then some (c.toNat - 55)
  else none

/-- Split a character list into its leading run of decimal digits (as
values) and the remainder. -/
def takeDigits : List Char → (List Nat × List Char)
  | [] => ([], [])
  | c :: cs =>
    match digitVal? c with
    | some d => let p := takeDigits cs; (d :: p.1, p.2)
    | none => ([], c :: cs)

/-- Numeric value of a digit-value list, most significant first. -/
def digitsVal (ds : List Nat) : Nat :=
  ds.foldl (fun a d => a * 10 + d) 0

/-- Consume a non-empty run of decimal digits from the front of the input,
returning its value and the rest. -/
def parseNat : List Char → Option (Nat × List Char) := fun cs =>
  match takeDigits cs with
  | ([], _) => none
  | (ds, r) => some (digitsVal ds, r)

/-! ## JSON serialization (canonical compact form) -/

/-- Escape one character for a JSON string literal: `"` and `\` get a
backslash escape, control characters become `\u00XX`, everything else is
literal. -/
def escapeChar (c : Char) : List Char :=
  if c = '"' then ['\\', '"']
  else if c = '\\' then ['\\', '\\']
  else if c.toNat < 32 then
    ['\\', 'u', '0', '0', hexDigitChar (c.toNat / 16), hexDigitChar (c.toNat % 16)]
  else [c]

/-- Escape a whole character sequence for a JSON string literal. -/
def escapeChars : List Char → List Char
  | [] => []
  | c :: cs => escapeChar c ++ escapeChars cs

mutual

/-- Compact JSON serialization of a `JValue`, as characters. -/
def serJ : JValue → List Char
  | .jnull => ['n', 'u', 'l', 'l']
  | .jbool true => ['t', 'r', 'u', 'e']
  | .jbool false => ['f', 'a', 'l', 's', 'e']
  | .jnum i => intToDecChars i
  | .jstr s => '"' :: (escapeChars s.data ++ ['"'])
  | .jarr xs => '[' :: (serArr xs ++ [']'])
  | .jobj ms => '{' :: (serObj ms ++ ['}'])

/-- Comma-separated serialization of array elements. -/
def serArr : List JValue → List Char
  | [] => []
  | [x] => serJ x
  | x :: y :: xs => serJ x ++ ',' :: serArr (y :: xs)

/-- Comma-separated serialization of object members. -/
def serObj : List (String × JValue) → List Char
  | [] => []
  | [(k, v)] => '"' :: (escapeChars k.data ++ '"' :: ':' :: serJ v)
  | (k, v) :: m :: ms =>
    ('"' :: (escapeChars k.data ++ '"' :: ':' :: serJ v)) ++ ',' :: serObj (m :: ms)

end

/-- Compact JSON serialization of a `JValue`, as a string. -/
def Json.serialize (v : JValue) : String := String.mk (serJ v)

/-! ## JSON parsing (model of `json.loads`) -/

/-- Unescape a single-character JSON escape. -/
def unescape? (e : Char) : Option Char :=
  if e = '"' then some '"'
  else if e = '\\' then some '\\'
  else if e = '/' then some '/'
  else if e = 'n' then some '\n'
  else if e = 't' then some '\t'
  else if e = 'r' then some '\r'
  else if e = 'b' then some (Char.ofNat 8)
  else if e = 'f' then some (Char.ofNat 12)
  else none

/-- Parse the body of a JSON string literal (after the opening quote),
returning the decoded characters and the input after the closing quote. -/
def parseStringBody : List Char → Option (List Char × List Char)
  | [] => none
  | c :: rest =>
    if c = '"' then some ([], rest)
    else if c = '\\' then
      match rest with
      | [] => none
      | e :: rest' =>
        if e = 'u' then
          match rest' with
          | h1 :: h2 :: h3 :: h4 :: rest'' =>
            match hexVal? h1, hexVal? h2, hexVal? h3, hexVal? h4 with
            | some a, some b, some c2, some d =>
              match parseStringBody rest'' with
              | some (s, r) => some (Char.ofNat (((a * 16 + b) * 16 + c2) * 16 + d) :: s, r)
              | none => none
            | _, _, _, _ => none
          | _ => none
        else
          match unescape? e with
          | some c' =>
            match parseStringBody rest' with
            | some (s, r) => some (c' :: s, r)
            | none => none
          | none => none
    else
      match parseStringBody rest with
      | some (s, r) => some (c :: s, r)
      | none => none

mutual

/-- Fuel-indexed JSON value parser over characters.  Returns the parsed
value and the unconsumed input. -/
def parseVal : Nat → List Char → Option (JValue × List Char)
  | 0, _ => none
  | f + 1, cs =>
    match cs with
    | [] => none
    | c :: rest =>
      if c = 'n' then
        match rest with
        | 'u' :: 'l' :: 'l' :: r => some (.jnull, r)
        | _ => none
      else if c = 't' then
        match rest with
        | 'r' :: 'u' :: 'e' :: r => some (.jbool true, r)
        | _ => none
      else if c = 'f' then
        match rest with
        | 'a' :: 'l' :: 's' :: 'e' :: r => some (.jbool false, r)
        | _ => none
      else if c = '"' then
        match parseStringBody rest with
        | some (s, r) => some (.jstr (String.mk s), r)
        | none => none
      else if c = '[' then
        if rest.head? = some ']' then some (.jarr [], rest.tail)
        else
          match parseItems f rest with
          | some (vs, r) => some (.jarr vs, r)
          | none => none
      else if c = '{' then
        if rest.head? = some '}' then some (.jobj [], rest.tail)
        else
          match parseMembers f rest with
          | some (ms, r) => some (.jobj ms, r)
          | none => none
      else if c = '-' then
        match parseNat rest with
        | some (n, r) => some (.jnum (-(n : Int)), r)
        | none => none
      else
        match parseNat (c :: rest) with
        | some (n, r) => some (.jnum (n : Int), r)
        | none => none

/-- Parse one or more comma-separated array items followed by `]`. -/
def parseItems : Nat → List Char → Option (List JValue × List Char)
  | 0, _ => none
  | f + 1, cs =>
    match parseVal f cs with
    | none => none
    | some (v, rest) =>
      match rest with
      | ',' :: rest' =>
        (match parseItems f rest' with
         | some (vs, r) => some (v :: vs, r)
         | none => none)
      | ']' :: rest' => some ([v], rest')
      | _ => none

/-- Parse one or more comma-separated object members followed by `}`. -/
def parseMembers : Nat → List Char → Option (List (String × JValue) × List Char)
  | 0, _ => none
  | f + 1, cs =>
    match cs with
    | '"' :: rest =>
      (match parseStringBody rest with
       | none => none
       | some (k, rest₁) =>
         match rest₁ with
         | ':' :: rest₂ =>
           (match parseVal f rest₂ with
            | none => none
            | some (v, rest₃) =>
              match rest₃ with
              | ',' :: rest₄ =>
                (match parseMembers f rest₄ with
                 | some (ms, r) => some ((String.mk k, v) :: ms, r)
                 | none => none)
              | '}' :: rest₄ => some ([(String.mk k, v)], rest₄)
              | _ => none)
         | _ => none)
    | _ => none

end

/-- Model of `json.loads` restricted to the wire protocol's value space
(numbers are integers).  The fuel `2 * length + 4` dominates the recursion
depth of any parse: every unit of fuel spent on `parseVal` consumes at
least one input character (the value's head character), and every unit
spent on `parseItems`/`parseMembers` is preceded by a consumed `[`, `{` or
`,`, so a successful parse can never exhaust it. -/
def Json.parse (s : String) : Option JValue :=
  match parseVal (2 * s.data.length + 4) s.data with
  | some (v, []) => some v
  | _ => none

/-! ## Python-semantics helpers -/

/-- Python truthiness of a value (`bool(x)`). -/
def pyTruthy : JValue → Bool
  | .jnull => false
  | .jbool b => b
  | .jnum n => n != 0
  | .jstr s => !s.isEmpty
  | .jarr xs => !xs.isEmpty
  | .jobj ms => !ms.isEmpty

/-- Last binding of a key in an ordered member list.  Python dict literals
and `json.loads` keep the last occurrence of a duplicated key, so lookup of
the last match models dict construction followed by `d[k]`. -/
def lookupLast (ms : List (String × JValue)) (k : String) : Option JValue :=
  match ms with
  | [] => none
  | (l, v) :: rest => match lookupLast rest k with
    | some w => some w
    | none => if l = k then some v else none

/-- Containment of `needle` as a contiguous run inside `haystack`. -/
def charsContain (haystack needle : List Char) : Bool :=
  match haystack with
  | [] => needle.isEmpty
  | _ :: cs => List.isPrefixOf needle haystack || charsContain cs needle

/-- Python `d[k]` for a string key: `KeyError` when the key is absent,
`TypeError` when the value is not a dict. -/
def getItem : JValue → String → Except PyErr JValue
  | .jobj ms, k =>
    match lookupLast ms k with
    | some v => .ok v
    | none => .error (.keyError k)
  | _, k => .error (.typeError ("value is not subscriptable by string key " ++ k))

/-- Python `d.get(k, default)`: only dicts have `.get`. -/
def pyGet : JValue → String → JValue → Except PyErr JValue
  | .jobj ms, k, dflt => .ok ((lookupLast ms k).getD dflt)
  | _, _, _ => .error (.attributeError "get")

/-- Python `k in d` for a string key against a container. -/
def pyContains : JValue → String → Except PyErr Bool
  | .jobj ms, k => .ok ((lookupLast ms k).isSome)
  | .jarr xs, k => .ok (xs.contains (.jstr k))
  | .jstr s, k => .ok (charsContain s.data k.data)
  | _, _ => .error (.typeError "argument is not iterable")

/-- Python iteration over a value: lists yield elements, strings yield
single-character strings, dicts yield their keys; other values raise
`TypeError`. -/
def pyIterate : JValue → Except PyErr (List JValue)
  | .jarr xs => .ok xs
  | .jstr s => .ok (s.data.map (fun c => .jstr (String.mk [c])))
  | .jobj ms => .ok (ms.map (fun m => .jstr m.1))
  | _ => .error (.typeError "object is not iterable")

/-- Python `xs[i]` on a (Python) list for a non-negative index. -/
def pyListIndex (xs : List JValue) (i : Nat) : Except PyErr JValue :=
  match xs.get? i with
  | some v => .ok v
  | none => .error (.indexError "list index out of range")

/-- Python `v[-1]` (last element) on a sequence value. -/
def pyLast : JValue → Except PyErr JValue
  | .jarr xs =>
    match xs.getLast? with
    | some v => .ok v
    | none => .error (.indexError "list index out of range")
  | .jstr s =>
    match s.data.getLast? with
    | some c => .ok (.jstr (String.mk [c]))
    | none => .error (.indexError "string index out of range")
  | _ => .error (.typeError "object is not subscriptable")

/-- Python `v[0]` on a sequence value. -/
def pyFirst : JValue → Except PyErr JValue
  | .jarr xs =>
    match xs.head? with
    | some v => .ok v
    | none => .error (.indexError "list index out of range")
  | .jstr s =>
    match s.data.head? with
    | some c => .ok (.jstr (String.mk [c]))
    | none => .error (.indexError "string index out of range")
  | .jobj _ => .error (.keyError "0")
  | _ => .error (.typeError "object is not subscriptable")

/-- Model of Python `int(s)` on strings: optional surrounding whitespace,
an optional sign, then one or more decimal digits. -/
def pyIntOfString? (s : String) : Option Int :=
  let cs := (((s.data.dropWhile (·.isWhitespace)).reverse.dropWhile
    (·.isWhitespace)).reverse)
  match cs with
  | [] => none
  | c :: ds =>
    if c = '-' then
      match parseNat ds with
      | some (n, []) => some (-(n : Int))
      | _ => none
    else if c = '+' then
      match parseNat ds with
      | some (n, []) => some (n : Int)
      | _ => none
    else
      match parseNat (c :: ds) with
      | some (n, []) => some (n : Int)
      | _ => none

/-- Model of Python `float(s)` on plain decimal literals
(`[sign] digits [ '.' digits ]`, also `.5` and `5.`), as an exact
rational.  Exotic inputs (exponents, inf, nan) are not modelled; the wire
protocol carries plain decimal strings. -/
def parseFloatQ? (s : String) : Option Rat :=
  let cs := (((s.data.dropWhile (·.isWhitespace)).reverse.dropWhile
    (·.isWhitespace)).reverse)
  let core : List Char → Option Rat := fun ds =>
    match ds with
    | [] => none
    | _ =>
      match takeDigits ds with
      | (ints, rest) =>
        match rest with
        | [] => if ints.isEmpty then none else some (mkRat (digitsVal ints) 1)
        | '.' :: frac =>
          match takeDigits frac with
          | (fds, []) =>
            if ints.isEmpty ∧ fds.isEmpty then none
            else some (mkRat
              (digitsVal ints * 10 ^ fds.length + digitsVal fds)
              (10 ^ fds.length))
          | _ => none
        | _ => none
  match cs with
  | '-' :: ds => (core ds).map (fun q => mkRat (-q.num) q.den)
  | '+' :: ds => core ds
  | ds => core ds

/-- Python `float(x)`: strings are parsed, numbers pass through, booleans
become 0/1, anything else raises `TypeError`. -/
def pyFloat : JValue → Except PyErr Rat
  | .jstr s =>
    match parseFloatQ? s with
    | some q => .ok q
    | none => .error (.valueError ("could not convert string to float: " ++ s))
  | .jnum n => .ok (mkRat n 1)
  | .jbool b => .ok (if b then mkRat 1 1 else mkRat 0 1)
  | _ => .error (.typeError "float() argument must be a string or a real number")

/-- Python `int(x)`: strings are parsed, numbers pass through, booleans
become 0/1, anything else raises `TypeError`. -/
def pyInt : JValue → Except PyErr Int
  | .jstr s =>
    match pyIntOfString? s with
    | some n => .ok n
    | none => .error (.valueError ("invalid literal for int() with base 10: " ++ s))
  | .jnum n => .ok n
  | .jbool b => .ok (if b then 1 else 0)
  | _ => .error (.typeError "int() argument must be a string or a number")

/-- Python `needle in haystack` on strings. -/
def strContains (haystack needle : String) : Bool :=
  charsContain haystack.data needle.data

/-- Python `line.replace("\n", "")`. -/
def removeNl (s : String) : String :=
  String.mk (s.data.filter (fun c => c ≠ '\n'))

/-- Python `str.splitlines()` restricted to `\n` separators: split on
newlines, without a trailing empty piece for a trailing newline. -/
def pySplitlines (s : String) : List String :=
  let rec go : List Char → List Char → List String
    | [], acc => if acc.isEmpty then [] else [String.mk acc.reverse]
    | c :: cs, acc =>
      if c = '\n' then String.mk acc.reverse :: go cs []
      else go cs (c :: acc)
  go s.data []

/-! ## The chunk decoder (`YtLoungeApi._parse_event_chunks`) -/

/-- Loop body of `_parse_event_chunks`, carrying `chunk_remaining` and
`current_chunk` across the line stream exactly as wrapper.py lines 258-272
do: a line read while `chunk_remaining <= 0` is parsed as the chunk length
with `int(...)`; other lines have their newlines removed and are appended
to the current chunk, `len(line) + 1` is subtracted, and at exactly zero
the chunk is parsed as JSON and emitted. -/
def parseChunksGo (chunkRemaining : Int) (currentChunk : String) :
    List String → Except PyErr (List JValue)
  | [] => .ok []
  | line :: rest =>
    if chunkRemaining ≤ 0 then
      match pyIntOfString? line with
      | none => .error (.valueError ("invalid literal for int() with base 10: " ++ line))
      | some n => parseChunksGo n "" rest
    else
      let l := removeNl line
      let cc := currentChunk ++ l
      let cr := chunkRemaining - l.length - 1
      if cr = 0 then
        match Json.parse cc with
        | none => .error .jsonDecodeError
        | some events => (parseChunksGo cr cc rest).map (events :: ·)
      else parseChunksGo cr cc rest

/-- Models `YtLoungeApi._parse_event_chunks`: decode a line stream into the list
of event batches it frames (the generator's yields, in order). -/
def parse_event_chunks (lines : List String) : Except PyErr (List JValue) :=
  parseChunksGo 0 "" lines

/-! ## Playback state enumeration (models.State) -/

/-- Playback state enumeration (models.py `State`). -/
inductive State where
  | Stopped
  | Buffering
  | Playing
  | Paused
  | Starting
  | Advertisement
deriving Repr, DecidableEq, Inhabited

/-- Numeric value of each `State` member (models.py lines 10-15). -/
def State.value : State → Int
  | .Stopped => -1
  | .Buffering => 0
  | .Playing => 1
  | .Paused => 2
  | .Starting => 3
  | .Advertisement => 1081

/-- Enum lookup `State(n)` (the member with the given value, if any). -/
def State.ofInt? (n : Int) : Option State :=
  if n = -1 then some .Stopped
  else if n = 0 then some .Buffering
  else if n = 1 then some .Playing
  else if n = 2 then some .Paused
  else if n = 3 then some .Starting
  else if n = 1081 then some .Advertisement
  else none

/-- Modelled from the spec: `State.parse`, called by events.py on wire
state strings, is missing from src/models.py (only its callers are in
src/).  Per the spec's event-taxonomy section, numeric strings convert to
the state enumeration, and §3 makes `Stopped` the default; the sibling
`PlaybackState.apply_state` in models.py confirms the fallback: it wraps
`State(int(s))` and assumes the stopped state on failure. -/
def State.parse (v : JValue) : State :=
  match v with
  | .jstr s =>
    (match pyIntOfString? s with
     | some n => (State.ofInt? n).getD .Stopped
     | none => .Stopped)
  | .jnum n => (State.ofInt? n).getD .Stopped
  | _ => .Stopped

/-! ## Typed events (events.py) -/

/-- events.py `PlaybackStateEvent`. -/
structure PlaybackStateEvent where
  current_time : Rat
  duration : Rat
  state : State
deriving Repr, DecidableEq

/-- events.py `PlaybackStateEvent.__init__`. -/
def PlaybackStateEvent.ofData (data : JValue) : Except PyErr PlaybackStateEvent := do
  let current_time ← pyFloat (← getItem data "currentTime")
  let duration ← pyFloat (← getItem data "duration")
  let state := State.parse (← getItem data "state")
  .ok { current_time, duration, state }

/-- events.py `NowPlayingEvent`. -/
structure NowPlayingEvent where
  video_id : JValue
  current_time : Option Rat
  duration : Option Rat
  state : State
deriving Repr, DecidableEq

/-- events.py `NowPlayingEvent.__init__`. -/
def NowPlayingEvent.ofData (data : JValue) : Except PyErr NowPlayingEvent := do
  let video_id ← pyGet data "videoId" .jnull
  let current_time ← (do
    if (← pyContains data "currentTime") then
      let q ← pyFloat (← getItem data "currentTime")
      pure (some q)
    else pure none)
  let duration ← (do
    if (← pyContains data "duration") then
      let q ← pyFloat (← getItem data "duration")
      pure (some q)
    else pure none)
  let state ← (do
    if (← pyContains data "state") then
      pure (State.parse (← getItem data "state"))
    else pure State.Stopped)
  .ok { video_id, current_time, duration, state }

/-- events.py `VolumeChangedEvent`. -/
structure VolumeChangedEvent where
  volume : Int
  muted : Bool
deriving Repr, DecidableEq

/-- events.py `VolumeChangedEvent.__init__`. -/
def VolumeChangedEvent.ofData (data : JValue) : Except PyErr VolumeChangedEvent := do
  let volume ← pyInt (← getItem data "volume")
  let muted := decide ((← getItem data "muted") = .jstr "true")
  .ok { volume, muted }

/-- events.py `AutoplayModeChangedEvent`. -/
structure AutoplayModeChangedEvent where
  enabled : Bool
  supported : Bool
deriving Repr, DecidableEq

/-- events.py `AutoplayModeChangedEvent.__init__`. -/
def AutoplayModeChangedEvent.ofData (data : JValue) :
    Except PyErr AutoplayModeChangedEvent := do
  let m ← getItem data "autoplayMode"
  .ok { enabled := decide (m = .jstr "ENABLED"),
        supported := decide (m ≠ .jstr "UNSUPPORTED") }

/-- events.py `AdStateEvent`. -/
structure AdStateEvent where
  ad_state : State
  current_time : Rat
  is_skip_enabled : Bool
deriving Repr, DecidableEq

/-- events.py `AdStateEvent.__init__`. -/
def AdStateEvent.ofData (data : JValue) : Except PyErr AdStateEvent := do
  let ad_state := State.parse (← getItem data "adState")
  let current_time ← pyFloat (← getItem data "currentTime")
  let is_skip_enabled := decide ((← getItem data "isSkipEnabled") = .jstr "true")
  .ok { ad_state, current_time, is_skip_enabled }

/-- events.py `AdPlayingEvent`. -/
structure AdPlayingEvent where
  ad_video_id : JValue
  ad_video_uri : JValue
  ad_title : JValue
  is_bumper : Bool
  is_skippable : Bool
  is_skip_enabled : Bool
  click_through_url : JValue
  ad_system : JValue
  ad_next_params : JValue
  remote_slots_data : JValue
  ad_state : State
  content_video_id : JValue
  duration : Rat
  current_time : Rat
deriving Repr, DecidableEq

/-- events.py `AdPlayingEvent.__init__`. -/
def AdPlayingEvent.ofData (data : JValue) : Except PyErr AdPlayingEvent := do
  let ad_video_id ← pyGet data "adVideoId" .jnull
  let ad_video_uri ← pyGet data "adVideoUri" .jnull
  let ad_title ← getItem data "adTitle"
  let is_bumper := decide ((← getItem data "isBumper") = .jstr "true")
  let is_skippable := decide ((← getItem data "isSkippable") = .jstr "true")
  let is_skip_enabled := decide ((← getItem data "isSkipEnabled") = .jstr "true")
  let click_through_url ← getItem data "clickThroughUrl"
  let ad_system ← getItem data "adSystem"
  let ad_next_params ← getItem data "adNextParams"
  let remote_slots_data ← pyGet data "remoteSlotsData" .jnull
  let ad_state := State.parse (← getItem data "adState")
  let content_video_id ← getItem data "contentVideoId"
  let duration ← pyFloat (← getItem data "duration")
  let current_time ← pyFloat (← getItem data "currentTime")
  .ok { ad_video_id, ad_video_uri, ad_title, is_bumper, is_skippable,
        is_skip_enabled, click_through_url, ad_system, ad_next_params,
        remote_slots_data, ad_state, content_video_id, duration, current_time }

/-- events.py `SubtitlesTrackEvent`. -/
structure SubtitlesTrackEvent where
  video_id : JValue
  track_name : JValue
  language_code : JValue
  source_language_code : JValue
  language_name : JValue
  kind : JValue
  vss_id : JValue
  caption_id : JValue
  style : JValue
deriving Repr, DecidableEq

/-- events.py `SubtitlesTrackEvent.__init__`. -/
def SubtitlesTrackEvent.ofData (data : JValue) : Except PyErr SubtitlesTrackEvent := do
  let video_id ← getItem data "videoId"
  let track_name ← pyGet data "trackName" .jnull
  let language_code ← pyGet data "languageCode" .jnull
  let source_language_code ← pyGet data "sourceLanguageCode" .jnull
  let language_name ← pyGet data "languageName" .jnull
  let kind ← pyGet data "kind" .jnull
  let vss_id ← pyGet data "vss_id" .jnull
  let caption_id ← pyGet data "captionId" .jnull
  let style ← pyGet data "style" .jnull
  .ok { video_id, track_name, language_code, source_language_code,
        language_name, kind, vss_id, caption_id, style }

/-- events.py `AutoplayUpNextEvent`. -/
structure AutoplayUpNextEvent where
  video_id : JValue
deriving Repr, DecidableEq

/-- events.py `AutoplayUpNextEvent.__init__`. -/
def AutoplayUpNextEvent.ofData (data : JValue) : Except PyErr AutoplayUpNextEvent := do
  let video_id ← getItem data "videoId"
  .ok { video_id }

/-- events.py `PlaybackSpeedEvent`. -/
structure PlaybackSpeedEvent where
  playback_speed : Rat
deriving Repr, DecidableEq

/-- events.py `PlaybackSpeedEvent.__init__`. -/
def PlaybackSpeedEvent.ofData (data : JValue) : Except PyErr PlaybackSpeedEvent := do
  let playback_speed ← pyFloat (← getItem data "playbackSpeed")
  .ok { playback_speed }

/-- events.py `DisconnectedEvent` (reason is `None` when the payload is
falsy or lacks the key). -/
structure DisconnectedEvent where
  reason : JValue
deriving Repr, DecidableEq

/-- events.py `DisconnectedEvent.__init__`:
`data.get("reason", None) if data else None`. -/
def DisconnectedEvent.ofData (data : JValue) : Except PyErr DisconnectedEvent := do
  if pyTruthy data then
    let reason ← pyGet data "reason" .jnull
    .ok { reason }
  else
    .ok { reason := .jnull }

/-! ## Auth and client state -/

/-- models.py `CURRENT_AUTH_VERSION`. -/
def CURRENT_AUTH_VERSION : Int := 0

/-- models.py `AuthState`.  Fields hold arbitrary Python values
(`JValue.jnull` is Python `None`); `extra` records attributes created by
`deserialize`'s `setattr` for keys outside the dataclass fields, in
insertion order, so that `vars(self)` is recoverable. -/
structure AuthState where
  version : JValue
  screen_id : JValue
  lounge_id_token : JValue
  refresh_token : JValue
  expiry : JValue
  extra : List (String × JValue)
deriving Repr, DecidableEq

/-- models.py `AuthState.__init__`. -/
def AuthState.init : AuthState :=
  { version := .jnum CURRENT_AUTH_VERSION, screen_id := .jnull,
    lounge_id_token := .jnull, refresh_token := .jnull, expiry := .jnull,
    extra := [] }

/-- Python `setattr(self, key, v)` on an `AuthState`. -/
def AuthState.setattr (a : AuthState) (key : String) (v : JValue) : AuthState :=
  if key = "version" then { a with version := v }
  else if key = "screen_id" then { a with screen_id := v }
  else if key = "lounge_id_token" then { a with lounge_id_token := v }
  else if key = "refresh_token" then { a with refresh_token := v }
  else if key = "expiry" then { a with expiry := v }
  else if (a.extra.map Prod.fst).contains key then
    { a with extra := a.extra.map (fun m => if m.1 = key then (key, v) else m) }
  else { a with extra := a.extra ++ [(key, v)] }

/-- models.py `AuthState.serialize`: `vars(self)` as an ordered record
(the `__init__` insertion order, then any extra attributes). -/
def AuthState.serialize (a : AuthState) : List (String × JValue) :=
  [("version", a.version), ("screen_id", a.screen_id),
   ("lounge_id_token", a.lounge_id_token), ("refresh_token", a.refresh_token),
   ("expiry", a.expiry)] ++ a.extra

/-- models.py `AuthState.deserialize` (lines 108-112): if
`data["version"] == CURRENT_AUTH_VERSION`, set every key of the record on
the object; otherwise do nothing.  A record without a `version` key raises
`KeyError`. -/
def AuthState.deserialize (a : AuthState) (data : List (String × JValue)) :
    Except PyErr AuthState :=
  match lookupLast data "version" with
  | none => .error (.keyError "version")
  | some v =>
    if v = .jnum CURRENT_AUTH_VERSION then
      .ok (data.foldl (fun acc m => acc.setattr m.1 m.2) a)
    else .ok a

/-- api.py `api_base`. -/
def api_base : String := "https://www.youtube.com/api/lounge"

/-- Modelled from the spec: `BLACKLISTED_CLIENTS` is imported by
wrapper.py from models.py but absent from src/models.py.  The spec names
the blacklisted client family as the kids-mode client. -/
def BLACKLISTED_CLIENTS : List String := ["TVHTML5_FOR_KIDS"]

/-- The mutable state of a `YtLoungeApi` instance (wrapper.py
`__init__`, lines 40-64).  `JValue.jnull` stands for Python `None`. -/
structure ClientState where
  device_name : String
  auth : AuthState
  sid : JValue
  gsession : JValue
  last_event_id : JValue
  command_offset : Int
  screen_name : JValue
  device_info : JValue
deriving Repr, DecidableEq

/-- wrapper.py `YtLoungeApi.__init__`. -/
def YtLoungeApi.init (device_name : String) : ClientState :=
  { device_name, auth := AuthState.init, sid := .jnull, gsession := .jnull,
    last_event_id := .jnull, command_offset := 1, screen_name := .jnull,
    device_info := .jnull }

/-- Python `x is None` for our value model. -/
def isNone : JValue → Bool
  | .jnull => true
  | _ => false

/-- wrapper.py `paired`: the screen id is known. -/
def paired (st : ClientState) : Bool := !isNone st.auth.screen_id

/-- wrapper.py `linked`: paired and the lounge id token is known. -/
def linked (st : ClientState) : Bool :=
  paired st && !isNone st.auth.lounge_id_token

/-- wrapper.py `connected`: both session identifiers are known. -/
def connected (st : ClientState) : Bool :=
  !isNone st.sid && !isNone st.gsession

/-- wrapper.py `_connection_lost`: clear `_sid`, `_gsession` and
`_last_event_id`. -/
def connection_lost (st : ClientState) : ClientState :=
  { st with sid := .jnull, gsession := .jnull, last_event_id := .jnull }

/-- wrapper.py `_lounge_token_expired`: clear the auth token. -/
def lounge_token_expired (st : ClientState) : ClientState :=
  { st with auth := { st.auth with lounge_id_token := .jnull } }

/-- wrapper.py `store_auth_state` (lines 182-188): the exact record it
builds. -/
def store_auth_state (st : ClientState) : List (String × JValue) :=
  [("screenId", st.auth.screen_id),
   ("lounge_id_token", st.auth.lounge_id_token),
   ("refresh_token", st.auth.refresh_token)]

/-- wrapper.py `load_auth_state` (lines 190-193): replace `self.auth`
with a fresh `AuthState` and deserialize the record into it. -/
def load_auth_state (st : ClientState) (data : List (String × JValue)) :
    Except PyErr ClientState :=
  (AuthState.init.deserialize data).map (fun a => { st with auth := a })

/-- wrapper.py `_handle_session_result` (lines 341-352). -/
def handle_session_result (st : ClientState) (status_code : Int)
    (reason : String) : ClientState × Bool :=
  if status_code = 400 ∧ strContains reason "Unknown SID" then
    (connection_lost st, false)
  else if status_code = 410 ∧ strContains reason "Gone" then
    (connection_lost st, false)
  else if status_code = 401 ∧ strContains reason "Expired" then
    (lounge_token_expired (connection_lost st), false)
  else (st, true)

/-! ## Outbound requests -/

/-- An outbound HTTP POST to the bind endpoint: query parameters and form
body, both as ordered key-value lists. -/
structure Request where
  url : String
  params : List (String × JValue)
  body : List (String × JValue)
deriving Repr, DecidableEq

/-- wrapper.py `_common_connection_parameters` (lines 354-365). -/
def common_connection_parameters (st : ClientState) : List (String × JValue) :=
  [("name", .jstr st.device_name),
   ("loungeIdToken", st.auth.lounge_id_token),
   ("SID", st.sid),
   ("AID", st.last_event_id),
   ("gsessionid", st.gsession),
   ("device", .jstr "REMOTE_CONTROL"),
   ("app", .jstr "youtube-desktop"),
   ("VER", .jstr "8"),
   ("v", .jstr "2")]

/-- wrapper.py `_command` (lines 443-462), up to the point where the POST
is issued: precondition check, body construction with `ofs` at the current
`_command_offset`, the increment, and the query parameters with `RID` at
the incremented offset.  The network response is handled separately by
`command_handle_response`. -/
def command_build (st : ClientState) (command : String)
    (command_parameters : List (String × JValue)) :
    Except PyErr (ClientState × Request) :=
  if !connected st then .error (.notConnected "Not connected")
  else
    let command_body :=
      [("count", .jnum 1), ("ofs", .jnum st.command_offset),
       ("req0__sc", .jstr command)] ++
      command_parameters.map (fun m => ("req0_" ++ m.1, m.2))
    let st := { st with command_offset := st.command_offset + 1 }
    let params := common_connection_parameters st ++
      [("RID", .jnum st.command_offset)]
    .ok (st, { url := api_base ++ "/bc/bind", params, body := command_body })

/-- wrapper.py `disconnect` (lines 412-431), up to the point where the
POST is issued: precondition check, the terminate body, and query
parameters with `RID` at the current (un-incremented) `_command_offset`. -/
def disconnect_build (st : ClientState) : Except PyErr (ClientState × Request) :=
  if !connected st then .error (.notConnected "Not connected")
  else
    let command_body :=
      [("ui", .jstr ""), ("TYPE", .jstr "terminate"),
       ("clientDisconnectReason",
        .jstr "MDX_SESSION_DISCONNECT_REASON_DISCONNECTED_BY_USER")]
    let params := common_connection_parameters st ++
      [("CVER", .jstr "1"), ("RID", .jnum st.command_offset),
       ("auth_failure_option", .jstr "send_error")]
    .ok (st, { url := api_base ++ "/bc/bind", params, body := command_body })

/-! ## Event routing -/

/-- One dispatched observer callback (event_listener.py surface). -/
inductive Dispatched where
  | playback_state_changed (e : PlaybackStateEvent)
  | now_playing_changed (e : NowPlayingEvent)
  | volume_changed (e : VolumeChangedEvent)
  | autoplay_changed (e : AutoplayModeChangedEvent)
  | ad_state_changed (e : AdStateEvent)
  | ad_playing_changed (e : AdPlayingEvent)
  | subtitles_track_changed (e : SubtitlesTrackEvent)
  | autoplay_up_next_changed (e : AutoplayUpNextEvent)
  | playback_speed_changed (e : PlaybackSpeedEvent)
  | disconnected (e : DisconnectedEvent)
deriving Repr, DecidableEq

/-- Observable side effects of event processing, in program order:
observer dispatches, the two state-clearing helpers, and outbound command
POSTs. -/
inductive Action where
  | dispatch (e : Dispatched)
  | connectionLost
  | tokenExpired
  | sentCommand (command : String) (req : Request)
deriving Repr, DecidableEq

/-- Python iterable unpacking `a, b = v` into exactly two values. -/
def unpack2 (v : JValue) : Except PyErr (JValue × JValue) := do
  let l ← pyIterate v
  match l with
  | [a, b] => .ok (a, b)
  | [] | [_] => .error (.valueError "not enough values to unpack")
  | _ => .error (.valueError "too many values to unpack")

/-- Python iterable unpacking `t, *args = v` (head and rest). -/
def unpackHead (v : JValue) : Except PyErr (JValue × List JValue) := do
  let l ← pyIterate v
  match l with
  | t :: args => .ok (t, args)
  | [] => .error (.valueError "not enough values to unpack")

/-- Python `args[0]` on the argument list. -/
def argsFirst (args : List JValue) : Except PyErr JValue :=
  pyListIndex args 0

/-- The `loungeStatus` device scan (wrapper.py lines 225-235): find the
first device of type `LOUNGE_SCREEN`, record its name and parsed device
info, raise `NotSupportedException` when the device info names a
blacklisted client, and stop at the first match. -/
def find_screen (st : ClientState) : List JValue → Except PyErr ClientState
  | [] => .ok st
  | device :: rest => do
    let ty ← getItem device "type"
    if ty = .jstr "LOUNGE_SCREEN" then
      let name ← getItem device "name"
      let st := { st with screen_name := name }
      let diRaw ← pyGet device "deviceInfo" (.jstr "null")
      let diStr ← (match diRaw with
        | .jstr s => .ok s
        | _ => .error (.typeError "the JSON object must be str"))
      let di ← (match Json.parse diStr with
        | some v => .ok v
        | none => .error .jsonDecodeError)
      let st := { st with device_info := di }
      if pyTruthy di then
        let clientName ← pyGet di "clientName" (.jstr "")
        if BLACKLISTED_CLIENTS.any (fun b => clientName = .jstr b) then
          .error (.notSupported "Unsupported client")
        else .ok st
      else .ok st
    else find_screen st rest

/-- wrapper.py `_process_event` (lines 203-243): route one non-control
event.  Observer calls are recorded as `Action.dispatch`; the
`onPlaybackSpeedChanged` branch additionally performs `get_now_playing`,
modelled up to the issued POST (`Action.sentCommand`) since the network
response is external input.  The `loungeScreenDisconnected` branch
dispatches first and only then calls `_connection_lost` and
`_lounge_token_expired`, exactly as the source does. -/
def process_event (st : ClientState) (event_type : JValue) (args : List JValue) :
    Except PyErr (ClientState × List Action) :=
  if event_type = .jstr "onStateChange" then do
    let e ← PlaybackStateEvent.ofData (← argsFirst args)
    .ok (st, [.dispatch (.playback_state_changed e)])
  else if event_type = .jstr "nowPlaying" then do
    let e ← NowPlayingEvent.ofData (← argsFirst args)
    .ok (st, [.dispatch (.now_playing_changed e)])
  else if event_type = .jstr "onVolumeChanged" then do
    let e ← VolumeChangedEvent.ofData (← argsFirst args)
    .ok (st, [.dispatch (.volume_changed e)])
  else if event_type = .jstr "onAutoplayModeChanged" then do
    let e ← AutoplayModeChangedEvent.ofData (← argsFirst args)
    .ok (st, [.dispatch (.autoplay_changed e)])
  else if event_type = .jstr "onAdStateChange" then do
    let e ← AdStateEvent.ofData (← argsFirst args)
    .ok (st, [.dispatch (.ad_state_changed e)])
  else if event_type = .jstr "adPlaying" then do
    let e ← AdPlayingEvent.ofData (← argsFirst args)
    .ok (st, [.dispatch (.ad_playing_changed e)])
  else if event_type = .jstr "onSubtitlesTrackChanged" then do
    let e ← SubtitlesTrackEvent.ofData (← argsFirst args)
    .ok (st, [.dispatch (.subtitles_track_changed e)])
  else if event_type = .jstr "autoplayUpNext" then
    if args.isEmpty then .ok (st, [])
    else do
      let e ← AutoplayUpNextEvent.ofData (← argsFirst args)
      .ok (st, [.dispatch (.autoplay_up_next_changed e)])
  else if event_type = .jstr "onPlaybackSpeedChanged" then do
    let e ← PlaybackSpeedEvent.ofData (← argsFirst args)
    let (st, req) ← command_build st "getNowPlaying" []
    .ok (st, [.dispatch (.playback_speed_changed e),
              .sentCommand "getNowPlaying" req])
  else if event_type = .jstr "loungeStatus" then do
    let data ← argsFirst args
    let devicesRaw ← getItem data "devices"
    let devicesStr ← (match devicesRaw with
      | .jstr s => .ok s
      | _ => .error (.typeError "the JSON object must be str"))
    let devices ← (match Json.parse devicesStr with
      | some v => .ok v
      | none => .error .jsonDecodeError)
    let devList ← pyIterate devices
    let st ← find_screen st devList
    .ok (st, [])
  else if event_type = .jstr "loungeScreenDisconnected" then do
    let payload := match args.head? with
      | some d => d
      | none => JValue.jnull
    let e ← DisconnectedEvent.ofData payload
    .ok (lounge_token_expired (connection_lost st),
         [.dispatch (.disconnected e), .connectionLost, .tokenExpired])
  else if event_type = .jstr "noop" then .ok (st, [])
  else .ok (st, [])

/-- Loop body of `_process_events`: one batch entry
(`_event_id, (event_type, *args) = event`; `c` sets `_sid`, `S` sets
`_gsession`, anything else goes to `_process_event`). -/
def process_one (st : ClientState) (event : JValue) :
    Except PyErr (ClientState × List Action) := do
  let (_event_id, rhs) ← unpack2 event
  let (event_type, args) ← unpackHead rhs
  if event_type = .jstr "c" then do
    let v ← argsFirst args
    .ok ({ st with sid := v }, [])
  else if event_type = .jstr "S" then do
    let v ← argsFirst args
    .ok ({ st with gsession := v }, [])
  else process_event st event_type args

/-- Fold of `process_one` over the entries of a batch. -/
def process_list (st : ClientState) : List JValue →
    Except PyErr (ClientState × List Action)
  | [] => .ok (st, [])
  | ev :: rest => do
    let (st, acts) ← process_one st ev
    let (st, acts') ← process_list st rest
    .ok (st, acts ++ acts')

/-- wrapper.py `_process_events` (lines 245-256): process each entry in
order, then set `_last_event_id` to `events[-1][0]`. -/
def process_events (st : ClientState) (events : JValue) :
    Except PyErr (ClientState × List Action) := do
  let evList ← pyIterate events
  let (st, acts) ← process_list st evList
  let lastEntry ← pyLast events
  let last_id ← pyFirst lastEntry
  .ok ({ st with last_event_id := last_id }, acts)

/-! ## Response handling of the client operations -/

/-- Fold of `_process_events` over all decoded batches (the
`async for events in self._parse_event_chunks(...)` loop in `connect`). -/
def process_batches (st : ClientState) : List JValue →
    Except PyErr (ClientState × List Action)
  | [] => .ok (st, [])
  | b :: rest => do
    let (st, acts) ← process_events st b
    let (st, acts') ← process_batches st rest
    .ok (st, acts ++ acts')

/-- wrapper.py `connect` (lines 317-332), from the response on: a 401
clears only the auth token and reports not connected; any other non-200
status reports failure with no state change; a 200 body is decoded as a
chunk stream, each batch is processed, `_command_offset` is reset to 1 and
`connected()` is returned. -/
def connect_handle_response (st : ClientState) (status : Int)
    (_reason : String) (body : String) :
    Except PyErr (ClientState × List Action × Bool) :=
  if status = 401 then
    .ok (lounge_token_expired st, [Action.tokenExpired], false)
  else if status ≠ 200 then .ok (st, [], false)
  else do
    let batches ← parse_event_chunks (pySplitlines body)
    let (st, acts) ← process_batches st batches
    let st := { st with command_offset := 1 }
    .ok (st, acts, connected st)

/-- The subscribe loop over decoded batches (wrapper.py lines 391-394):
process each batch as it arrives and stop as soon as `connected()` turns
false. -/
def subscribe_loop (st : ClientState) : List JValue →
    Except PyErr (ClientState × List Action)
  | [] => .ok (st, [])
  | b :: rest => do
    let (st, acts) ← process_events st b
    if !connected st then .ok (st, acts)
    else do
      let (st, acts') ← subscribe_loop st rest
      .ok (st, acts ++ acts')

/-- wrapper.py `subscribe` (lines 384-395), from the response on: session
loss is detected from the HTTP status and the reason phrase
(`resp.reason or ""`), then the body's batches are routed until the
session disappears. -/
def subscribe_handle_response (st : ClientState) (status : Int)
    (reason : Option String) (lines : List String) :
    Except PyErr (ClientState × List Action) :=
  let p := handle_session_result st status (reason.getD "")
  if !p.2 then .ok (p.1, [])
  else do
    let batches ← parse_event_chunks lines
    subscribe_loop p.1 batches

/-- wrapper.py `_command` (lines 463-469), from the response on: session
loss is detected from the HTTP status and the response body text, then
`resp.raise_for_status()` surfaces any remaining non-2xx status as an
exception. -/
def command_handle_response (st : ClientState) (status : Int)
    (response_text : String) : Except PyErr (ClientState × Bool) :=
  let p := handle_session_result st status response_text
  if !p.2 then .ok (p.1, false)
  else if 400 ≤ status then .error (.httpError status)
  else .ok (p.1, true)

/-- wrapper.py `disconnect` (lines 432-438), from the response on:
identical in shape to the command path (status plus response body text,
then `raise_for_status`). -/
def disconnect_handle_response (st : ClientState) (status : Int)
    (response_text : String) : Except PyErr (ClientState × Bool) :=
  let p := handle_session_result st status response_text
  if !p.2 then .ok (p.1, false)
  else if 400 ≤ status then .error (.httpError status)
  else .ok (p.1, true)

/-! ## The framing encoder (server side, spec §4.1) -/

/-- Modelled from the spec: the encoder side of the length-prefixed chunk
framing is the server's and is not part of src/; spec §4.1 describes it as
a decimal length line counting the chunk with its newlines, followed by
the chunk's lines.  Each batch is framed as its compact JSON on a single
line, so the length line carries that line's length plus one for its
terminating newline. -/
def encodeBatch (b : JValue) : List String :=
  [String.mk (natToDecChars ((Json.serialize b).length + 1)), Json.serialize b]

/-- Modelled from the spec: framing of a whole sequence of batches —
the concatenation of the individual framings. -/
def encodeBatches : List JValue → List String
  | [] => []
  | b :: bs => encodeBatch b ++ encodeBatches bs

/-! ## Size measures for the parser inversion -/

mutual

/-- Fuel measure of a JSON value for the parser inversion. -/
def jsize : JValue → Nat
  | .jarr xs => 2 + jsizeArr xs
  | .jobj ms => 2 + jsizeObj ms
  | _ => 1

/-- Fuel measure of an array element list. -/
def jsizeArr : List JValue → Nat
  | [] => 0
  | x :: xs => 1 + jsize x + jsizeArr xs

/-- Fuel measure of an object member list. -/
def jsizeObj : List (String × JValue) → Nat
  | [] => 0
  | m :: ms => 1 + jsize m.2 + jsizeObj ms

end

/-- Guard for the parser inversion: a serialized number must not be
followed by a digit (any other value is self-delimiting). -/
def numOk (v : JValue) (rest : List Char) : Prop :=
  match v, rest with
  | .jnum _, c :: _ => digitVal? c = none
  | _, _ => True

/-- What follows the first element inside a serialized array. -/
def arrTail : List JValue → List Char
  | [] => []
  | xs => ',' :: serArr xs

/-- What follows the first member inside a serialized object. -/
def objTail : List (String × JValue) → List Char
  | [] => []
  | ms => ',' :: serObj ms

/-- Serialization of a single object member. -/
def serMember (k : String) (v : JValue) : List Char :=
  '"' :: (escapeChars k.data ++ '"' :: ':' :: serJ v)

/-! ## Concrete states and inputs used by the claim theorems -/

/-- The batch of spec §8 / claim C1. -/
def c1_batch : JValue := .jarr [
  .jarr [.jnum 1, .jarr [.jstr "c", .jstr "SID1"]],
  .jarr [.jnum 2, .jarr [.jstr "S", .jstr "GS1"]],
  .jarr [.jnum 3, .jarr [.jstr "onStateChange",
    .jobj [("currentTime", .jstr "1.0"), ("duration", .jstr "2.0"),
           ("state", .jstr "1")]]]]

/-- A linked and connected client state (screen id, token, session
identifiers and a last event id all present). -/
def bound_state : ClientState :=
  { (YtLoungeApi.init "test") with
    sid := .jstr "SID1"
    gsession := .jstr "GS1"
    last_event_id := .jnum 3
    auth := { AuthState.init with
                screen_id := .jstr "screen123"
                lounge_id_token := .jstr "token123"
                refresh_token := .jstr "refresh123" } }

/-! ## Lemmas: decimal digits and the length line -/

theorem decDigits_lt10 (n : Nat) : ∀ d ∈ decDigits n, d < 10 := by
  induction n using Nat.strong_induction_on with
  | _ n ih =>
    rw [decDigits]
    split
    · intro d hd
      simp at hd
      omega
    · intro d hd
      rcases List.mem_append.mp hd with hd | hd
      · exact ih (n / 10) (Nat.div_lt_self (by omega) (by omega)) d hd
      · simp at hd
        subst hd
        exact Nat.mod_lt _ (by omega)

theorem decDigits_ne_nil (n : Nat) : decDigits n ≠ [] := by
  rw [decDigits]
  split
  · simp
  · simp

theorem digitsVal_append_one (ds : List Nat) (d : Nat) :
    digitsVal (ds ++ [d]) = digitsVal ds * 10 + d := by
  simp [digitsVal, List.foldl_append]

theorem digitsVal_decDigits (n : Nat) : digitsVal (decDigits n) = n := by
  induction n using Nat.strong_induction_on with
  | _ n ih =>
    rw [decDigits]
    split
    · simp [digitsVal]
    · rw [digitsVal_append_one, ih (n / 10) (Nat.div_lt_self (by omega) (by omega))]
      omega

theorem digitVal_digitChar {d : Nat} (h : d < 10) :
    digitVal? (Char.ofNat (48 + d)) = some d := by
  interval_cases d <;> decide

theorem digitChar_not_ws {d : Nat} (h : d < 10) :
    (Char.ofNat (48 + d)).isWhitespace = false := by
  interval_cases d <;> decide

/-- Head of the remainder is not a digit (or the remainder is empty). -/
def headNotDigit (rest : List Char) : Prop :=
  ∀ c, rest.head? = some c → digitVal? c = none

theorem takeDigits_digits (ds : List Nat) (h : ∀ d ∈ ds, d < 10)
    (rest : List Char) (hrest : headNotDigit rest) :
    takeDigits (ds.map (fun d => Char.ofNat (48 + d)) ++ rest) = (ds, rest) := by
  induction ds with
  | nil =>
    cases rest with
    | nil => rfl
    | cons c cs =>
      have := hrest c rfl
      simp [takeDigits, this]
  | cons d ds ih =>
    have hd : d < 10 := h d (by simp)
    have ht : ∀ x ∈ ds, x < 10 := fun x hx => h x (by simp [hx])
    simp [takeDigits, digitVal_digitChar hd, ih ht]

theorem parseNat_natToDecChars (n : Nat) (rest : List Char)
    (hrest : headNotDigit rest) :
    parseNat (natToDecChars n ++ rest) = some (n, rest) := by
  unfold parseNat natToDecChars
  rw [takeDigits_digits (decDigits n) (decDigits_lt10 n) rest hrest]
  have hne := decDigits_ne_nil n
  cases hd : decDigits n with
  | nil => exact absurd hd hne
  | cons a as =>
    have : digitsVal (a :: as) = n := by
      rw [← hd, digitsVal_decDigits]
    simp [this]

theorem natToDecChars_all_digit (n : Nat) :
    ∀ c ∈ natToDecChars n, 48 ≤ c.toNat ∧ c.toNat ≤ 57 := by
  intro c hc
  unfold natToDecChars at hc
  obtain ⟨d, hd, rfl⟩ := List.mem_map.mp hc
  have := decDigits_lt10 n d hd
  interval_cases d <;> decide

theorem dropWhile_ws_digits (n : Nat) :
    (natToDecChars n).dropWhile (·.isWhitespace) = natToDecChars n := by
  cases hd : natToDecChars n with
  | nil => rfl
  | cons c cs =>
    have hc : 48 ≤ c.toNat ∧ c.toNat ≤ 57 := by
      apply natToDecChars_all_digit n
      rw [hd]
      simp
    have : c.isWhitespace = false := by
      unfold natToDecChars at hd
      cases hdig : decDigits n with
      | nil => exact absurd hdig (decDigits_ne_nil n)
      | cons a as =>
        rw [hdig] at hd
        simp at hd
        obtain ⟨rfl, -⟩ := hd
        exact digitChar_not_ws (decDigits_lt10 n a (by rw [hdig]; simp))
    simp [List.dropWhile_cons, this]

theorem dropWhile_ws_digits_rev (n : Nat) :
    (natToDecChars n).reverse.dropWhile (·.isWhitespace) =
      (natToDecChars n).reverse := by
  cases hd : (natToDecChars n).reverse with
  | nil => rfl
  | cons c cs =>
    have hmem : c ∈ natToDecChars n := by
      have : c ∈ (natToDecChars n).reverse := by rw [hd]; simp
      simpa using this
    obtain ⟨h1, h2⟩ := natToDecChars_all_digit n c hmem
    have hws : c.isWhitespace = false := by
      simp only [Char.isWhitespace]
      have e1 : c ≠ ' ' := fun he => by subst he; exact absurd h1 (by decide)
      have e2 : c ≠ '\t' := fun he => by subst he; exact absurd h1 (by decide)
      have e3 : c ≠ '\r' := fun he => by subst he; exact absurd h1 (by decide)
      have e4 : c ≠ '\n' := fun he => by subst he; exact absurd h1 (by decide)
      simp [e1, e2, e3, e4]
    simp [List.dropWhile_cons, hws]

theorem pyIntOfString_natToDecChars (n : Nat) :
    pyIntOfString? (String.mk (natToDecChars n)) = some (n : Int) := by
  unfold pyIntOfString?
  simp only [dropWhile_ws_digits, dropWhile_ws_digits_rev, List.reverse_reverse]
  cases hd : natToDecChars n with
  | nil =>
    exact absurd (by simpa [natToDecChars] using congrArg List.isEmpty hd)
      (by simpa [natToDecChars] using decDigits_ne_nil n)
  | cons c cs =>
    have hc : 48 ≤ c.toNat ∧ c.toNat ≤ 57 := by
      apply natToDecChars_all_digit n
      rw [hd]
      simp
    have e1 : c ≠ '-' := fun he => by subst he; exact absurd hc.1 (by decide)
    have e2 : c ≠ '+' := fun he => by subst he; exact absurd hc.1 (by decide)
    have hp : parseNat (c :: cs) = some (n, []) := by
      rw [← hd]
      have := parseNat_natToDecChars n [] (fun c h => by simp at h)
      simpa using this
    simp [e1, e2, hp]

/-! ## Lemmas: string escaping round-trip -/

theorem hexVal_hexDigitChar {m : Nat} (h : m < 16) :
    hexVal? (hexDigitChar m) = some m := by
  interval_cases m <;> decide

theorem hexDigitChar_ne_nl {m : Nat} (h : m < 16) : hexDigitChar m ≠ '\n' := by
  interval_cases m <;> decide

theorem parseStringBody_escape (s rest : List Char) :
    parseStringBody (escapeChars s ++ '"' :: rest) = some (s, rest) := by
  induction s with
  | nil =>
    show parseStringBody ('"' :: rest) = some ([], rest)
    rw [parseStringBody.eq_def]
    simp
  | cons c cs ih =>
    by_cases h1 : c = '"'
    · subst h1
      show parseStringBody ('\\' :: '"' :: (escapeChars cs ++ '"' :: rest)) =
        some ('"' :: cs, rest)
      rw [parseStringBody.eq_def]
      simp [unescape?, ih]
    · by_cases h2 : c = '\\'
      · subst h2
        show parseStringBody ('\\' :: '\\' :: (escapeChars cs ++ '"' :: rest)) =
          some ('\\' :: cs, rest)
        rw [parseStringBody.eq_def]
        simp [unescape?, ih]
      · by_cases h3 : c.toNat < 32
        · have ha : c.toNat / 16 < 16 := by omega
          have hb : c.toNat % 16 < 16 := Nat.mod_lt _ (by omega)
          have hexp : escapeChars (c :: cs) ++ '"' :: rest =
              '\\' :: 'u' :: '0' :: '0' :: hexDigitChar (c.toNat / 16) ::
              hexDigitChar (c.toNat % 16) :: (escapeChars cs ++ '"' :: rest) := by
            simp [escapeChars, escapeChar, if_neg h1, if_neg h2, if_pos h3]
          rw [hexp, parseStringBody.eq_def]
          simp only [reduceIte, reduceCtorEq]
          rw [hexVal_hexDigitChar ha, hexVal_hexDigitChar hb,
            show hexVal? '0' = some 0 from rfl]
          simp [ih]
          rw [show c.toNat / 16 * 16 + c.toNat % 16 = c.toNat from by
            have := Nat.div_add_mod c.toNat 16; omega]
          rw [Char.ofNat_toNat]
        · have hexp : escapeChars (c :: cs) ++ '"' :: rest =
              c :: (escapeChars cs ++ '"' :: rest) := by
            simp [escapeChars, escapeChar, if_neg h1, if_neg h2, if_neg h3]
          rw [hexp, parseStringBody.eq_def]
          simp [h1, h2, ih]

theorem escapeChars_no_nl (l : List Char) : '\n' ∉ escapeChars l := by
  induction l with
  | nil => simp [escapeChars]
  | cons c cs ih =>
    intro hmem
    rw [show escapeChars (c :: cs) = escapeChar c ++ escapeChars cs from rfl]
      at hmem
    rcases List.mem_append.mp hmem with h | h
    · unfold escapeChar at h
      split at h
      · simp at h
      · split at h
        · simp at h
        · split at h
          · rename_i hlt
            simp at h
            rcases h with h | h
            · exact hexDigitChar_ne_nl (by omega) h.symm
            · exact hexDigitChar_ne_nl (Nat.mod_lt _ (by omega)) h.symm
          · rename_i hge
            simp at h
            subst h
            exact hge (by decide)
    · exact ih h

/-! ## Lemmas: serializer shape facts -/

theorem jsize_pos (v : JValue) : 1 ≤ jsize v := by
  cases v <;> simp [jsize] <;> omega

theorem nl_not_mem_natToDecChars (n : Nat) : '\n' ∉ natToDecChars n := by
  intro h
  exact absurd (natToDecChars_all_digit n _ h).1 (by decide)

theorem nl_not_mem_intToDecChars (i : Int) : '\n' ∉ intToDecChars i := by
  unfold intToDecChars
  split
  · intro h
    rcases List.mem_cons.mp h with h | h
    · exact absurd h (by decide)
    · exact nl_not_mem_natToDecChars _ h
  · exact nl_not_mem_natToDecChars _

theorem natToDecChars_ne_nil (n : Nat) : natToDecChars n ≠ [] := by
  unfold natToDecChars
  simp [decDigits_ne_nil n]

theorem serJ_no_nl_all : ∀ n : Nat,
    (∀ v : JValue, jsize v ≤ n → '\n' ∉ serJ v) ∧
    (∀ xs : List JValue, jsizeArr xs ≤ n → '\n' ∉ serArr xs) ∧
    (∀ ms : List (String × JValue), jsizeObj ms ≤ n → '\n' ∉ serObj ms) := by
  intro n
  induction n with
  | zero =>
    refine ⟨fun v hv => absurd hv (by have := jsize_pos v; omega), ?_, ?_⟩
    · intro xs hx
      cases xs with
      | nil => simp [serArr]
      | cons a as => simp [jsizeArr] at hx
    · intro ms hm
      cases ms with
      | nil => simp [serObj]
      | cons a as => simp [jsizeObj] at hm
  | succ n ih =>
    obtain ⟨ihJ, ihA, ihO⟩ := ih
    refine ⟨?_, ?_, ?_⟩
    · intro v hv
      cases v with
      | jnull => decide
      | jbool b => cases b <;> decide
      | jnum i => exact nl_not_mem_intToDecChars i
      | jstr s =>
        intro hmem
        simp only [serJ] at hmem
        rcases List.mem_cons.mp hmem with h | h
        · exact absurd h (by decide)
        · rcases List.mem_append.mp h with h | h
          · exact escapeChars_no_nl _ h
          · simp at h
      | jarr xs =>
        have hx : jsizeArr xs ≤ n := by simp [jsize] at hv; omega
        intro hmem
        simp only [serJ] at hmem
        rcases List.mem_cons.mp hmem with h | h
        · exact absurd h (by decide)
        · rcases List.mem_append.mp h with h | h
          · exact ihA xs hx h
          · simp at h
      | jobj ms =>
        have hm : jsizeObj ms ≤ n := by simp [jsize] at hv; omega
        intro hmem
        simp only [serJ] at hmem
        rcases List.mem_cons.mp hmem with h | h
        · exact absurd h (by decide)
        · rcases List.mem_append.mp h with h | h
          · exact ihO ms hm h
          · simp at h
    · intro xs hx
      cases xs with
      | nil => simp [serArr]
      | cons x xt =>
        cases xt with
        | nil =>
          have h1 : jsize x ≤ n := by simp [jsizeArr] at hx; omega
          intro hmem
          simp only [serArr] at hmem
          exact ihJ x h1 hmem
        | cons y yt =>
          have h1 : jsize x ≤ n := by
            simp [jsizeArr] at hx
            have := jsize_pos y
            omega
          have h2 : jsizeArr (y :: yt) ≤ n := by
            simp [jsizeArr] at hx ⊢
            have := jsize_pos x
            omega
          intro hmem
          simp only [serArr] at hmem
          rcases List.mem_append.mp hmem with h | h
          · exact ihJ x h1 h
          · rcases List.mem_cons.mp h with h | h
            · exact absurd h (by decide)
            · exact ihA (y :: yt) h2 h
    · intro ms hm
      cases ms with
      | nil => simp [serObj]
      | cons m mt =>
        obtain ⟨k, v⟩ := m
        cases mt with
        | nil =>
          have h1 : jsize v ≤ n := by simp [jsizeObj] at hm; omega
          intro hmem
          simp only [serObj] at hmem
          rcases List.mem_cons.mp hmem with h | h
          · exact absurd h (by decide)
          · rcases List.mem_append.mp h with h | h
            · exact escapeChars_no_nl _ h
            · rcases List.mem_cons.mp h with h | h
              · exact absurd h (by decide)
              · rcases List.mem_cons.mp h with h | h
                · exact absurd h (by decide)
                · exact ihJ v h1 h
        | cons p pt =>
          have h1 : jsize v ≤ n := by
            simp [jsizeObj] at hm
            have := jsize_pos p.2
            omega
          have h2 : jsizeObj (p :: pt) ≤ n := by
            simp [jsizeObj] at hm ⊢
            have := jsize_pos v
            omega
          intro hmem
          simp only [serObj] at hmem
          rcases List.mem_append.mp hmem with h | h
          · rcases List.mem_cons.mp h with h | h
            · exact absurd h (by decide)
            · rcases List.mem_append.mp h with h | h
              · exact escapeChars_no_nl _ h
              · rcases List.mem_cons.mp h with h | h
                · exact absurd h (by decide)
                · rcases List.mem_cons.mp h with h | h
                  · exact absurd h (by decide)
                  · exact ihJ v h1 h
          · rcases List.mem_cons.mp h with h | h
            · exact absurd h (by decide)
            · exact ihO (p :: pt) h2 h

theorem serJ_no_nl (v : JValue) : '\n' ∉ serJ v :=
  (serJ_no_nl_all (jsize v)).1 v (Nat.le_refl _)

theorem serJ_ne_nil (v : JValue) : serJ v ≠ [] := by
  cases v with
  | jnull => decide
  | jbool b => cases b <;> decide
  | jnum i =>
    show intToDecChars i ≠ []
    unfold intToDecChars
    split
    · simp
    · exact natToDecChars_ne_nil _
  | jstr s => simp [serJ]
  | jarr xs => simp [serJ]
  | jobj ms => simp [serJ]

theorem serJ_head_ne_rbracket (v : JValue) :
    ∀ c, (serJ v).head? = some c → c ≠ ']' := by
  intro c hc
  cases v with
  | jnull => simp [serJ] at hc; subst hc; decide
  | jbool b => cases b <;> simp [serJ] at hc <;> (subst hc; decide)
  | jnum i =>
    have : (intToDecChars i).head? = some c := hc
    unfold intToDecChars at this
    split at this
    · simp at this
      subst this
      decide
    · cases hd : natToDecChars i.natAbs with
      | nil => exact absurd hd (natToDecChars_ne_nil _)
      | cons a as =>
        rw [hd] at this
        simp at this
        subst this
        have := natToDecChars_all_digit i.natAbs a (by rw [hd]; simp)
        intro he
        subst he
        exact absurd this.2 (by decide)
  | jstr s => simp [serJ] at hc; subst hc; decide
  | jarr xs => simp [serJ] at hc; subst hc; decide
  | jobj ms => simp [serJ] at hc; subst hc; decide

theorem serArr_cons (x : JValue) (xs : List JValue) :
    serArr (x :: xs) = serJ x ++ arrTail xs := by
  cases xs <;> simp [serArr, arrTail]

theorem serObj_cons (k : String) (v : JValue) (ms : List (String × JValue)) :
    serObj ((k, v) :: ms) = serMember k v ++ objTail ms := by
  cases ms <;> simp [serObj, objTail, serMember]

theorem numOk_arrTail (x : JValue) (xs : List JValue) (rest : List Char) :
    numOk x (arrTail xs ++ ']' :: rest) := by
  cases x <;> cases xs <;> simp [numOk, arrTail] <;> decide

theorem numOk_objTail (v : JValue) (ms : List (String × JValue))
    (rest : List Char) : numOk v (objTail ms ++ '}' :: rest) := by
  cases v <;> cases ms <;> simp [numOk, objTail] <;> decide

/-! ## The parser inverts the serializer -/

theorem parseVal_ser_all : ∀ f : Nat,
    (∀ v rest, jsize v ≤ f → numOk v rest →
      parseVal f (serJ v ++ rest) = some (v, rest)) ∧
    (∀ vs rest, vs ≠ [] → jsizeArr vs < f →
      parseItems f (serArr vs ++ ']' :: rest) = some (vs, rest)) ∧
    (∀ ms rest, ms ≠ [] → jsizeObj ms < f →
      parseMembers f (serObj ms ++ '}' :: rest) = some (ms, rest)) := by
  intro f
  induction f with
  | zero =>
    refine ⟨?_, ?_, ?_⟩
    · intro v rest hv _
      exact absurd hv (by have := jsize_pos v; omega)
    · intro vs rest _ hs
      omega
    · intro ms rest _ hs
      omega
  | succ f ih =>
    obtain ⟨ihV, ihI, ihM⟩ := ih
    refine ⟨?_, ?_, ?_⟩
    · intro v rest hv hnum
      cases v with
      | jnull =>
        simp only [serJ, List.cons_append, List.nil_append]
        rw [parseVal.eq_def]
        simp
      | jbool b =>
        cases b <;>
          (simp only [serJ, List.cons_append, List.nil_append]
           rw [parseVal.eq_def]
           simp)
      | jnum i =>
        have hrest : headNotDigit rest := by
          intro c hc
          cases rest with
          | nil => simp at hc
          | cons r rs =>
            simp at hc
            subst hc
            exact hnum
        simp only [serJ]
        by_cases hneg : i < 0
        · rw [show intToDecChars i = '-' :: natToDecChars i.natAbs from by
            unfold intToDecChars; rw [if_pos hneg]]
          simp only [List.cons_append]
          have hp := parseNat_natToDecChars i.natAbs rest hrest
          have hval : -|i| = i := by
            rw [abs_of_neg hneg]
            omega
          rw [parseVal.eq_def]
          simp [hp, hval]
        · rw [show intToDecChars i = natToDecChars i.natAbs from by
            unfold intToDecChars; rw [if_neg hneg]]
          cases hd : natToDecChars i.natAbs with
          | nil => exact absurd hd (natToDecChars_ne_nil _)
          | cons a as =>
            have hdig := natToDecChars_all_digit i.natAbs a (by rw [hd]; simp)
            have e1 : a ≠ 'n' := fun he => by
              subst he; exact absurd hdig.2 (by decide)
            have e2 : a ≠ 't' := fun he => by
              subst he; exact absurd hdig.2 (by decide)
            have e3 : a ≠ 'f' := fun he => by
              subst he; exact absurd hdig.2 (by decide)
            have e4 : a ≠ '"' := fun he => by
              subst he; exact absurd hdig.1 (by decide)
            have e5 : a ≠ '[' := fun he => by
              subst he; exact absurd hdig.2 (by decide)
            have e6 : a ≠ '{' := fun he => by
              subst he; exact absurd hdig.2 (by decide)
            have e7 : a ≠ '-' := fun he => by
              subst he; exact absurd hdig.1 (by decide)
            have hp : parseNat (a :: (as ++ rest)) = some (i.natAbs, rest) := by
              rw [← List.cons_append, ← hd]
              exact parseNat_natToDecChars i.natAbs rest hrest
            have hval : |i| = i := abs_of_nonneg (by omega)
            simp only [List.cons_append]
            rw [parseVal.eq_def]
            simp [e1, e2, e3, e4, e5, e6, e7, hp, hval]
      | jstr s =>
        simp only [serJ, List.cons_append, List.append_assoc,
          List.singleton_append]
        rw [parseVal.eq_def]
        simp [parseStringBody_escape]
      | jarr xs =>
        cases xs with
        | nil =>
          simp only [serJ, serArr, List.nil_append, List.cons_append,
            List.singleton_append]
          rw [parseVal.eq_def]
          simp
        | cons x xt =>
          have hsz : jsizeArr (x :: xt) < f := by
            simp only [jsize] at hv
            omega
          have harr := ihI (x :: xt) rest (by simp) hsz
          have hshape : serJ (.jarr (x :: xt)) ++ rest =
              '[' :: (serArr (x :: xt) ++ ']' :: rest) := by
            simp only [serJ, List.cons_append, List.append_assoc,
              List.singleton_append, List.nil_append]
          rw [hshape]
          obtain ⟨c, t, hct⟩ : ∃ c t, serJ x = c :: t := by
            cases hc : serJ x with
            | nil => exact absurd hc (serJ_ne_nil x)
            | cons c t => exact ⟨c, t, rfl⟩
          have hcne : c ≠ ']' := serJ_head_ne_rbracket x c (by rw [hct]; rfl)
          have hsa : serArr (x :: xt) = c :: (t ++ arrTail xt) := by
            rw [serArr_cons, hct]
            simp
          have hh1 : (serArr (x :: xt)).head? ≠ some ']' := by
            rw [hsa]
            simpa using hcne
          have hh2 : serArr (x :: xt) ≠ [] := by
            rw [hsa]
            simp
          rw [parseVal.eq_def]
          simp [hh1, hh2, harr]
      | jobj ms =>
        cases ms with
        | nil =>
          simp only [serJ, serObj, List.nil_append, List.cons_append,
            List.singleton_append]
          rw [parseVal.eq_def]
          simp
        | cons m mt =>
          obtain ⟨k, v⟩ := m
          have hsz : jsizeObj ((k, v) :: mt) < f := by
            simp only [jsize] at hv
            omega
          have hobj := ihM ((k, v) :: mt) rest (by simp) hsz
          have hshape : serJ (.jobj ((k, v) :: mt)) ++ rest =
              '{' :: (serObj ((k, v) :: mt) ++ '}' :: rest) := by
            simp only [serJ, List.cons_append, List.append_assoc,
              List.singleton_append, List.nil_append]
          rw [hshape]
          have hso : serObj ((k, v) :: mt) =
              '"' :: (escapeChars k.data ++ '"' :: ':' :: serJ v ++
                objTail mt) := by
            rw [serObj_cons]
            simp [serMember, List.append_assoc]
          have hh1 : (serObj ((k, v) :: mt)).head? ≠ some '}' := by
            rw [hso]
            simp
          have hh2 : serObj ((k, v) :: mt) ≠ [] := by
            rw [hso]
            simp
          rw [parseVal.eq_def]
          simp [hh1, hh2, hobj]
    · intro vs rest hne hsz
      cases vs with
      | nil => exact absurd rfl hne
      | cons x xt =>
        have hx : jsize x ≤ f := by
          simp only [jsizeArr] at hsz
          omega
        have hnum := numOk_arrTail x xt rest
        have hv := ihV x (arrTail xt ++ ']' :: rest) hx hnum
        rw [serArr_cons, List.append_assoc, parseItems.eq_def]
        cases xt with
        | nil =>
          simp only [arrTail, List.nil_append] at hv
          simp [hv, arrTail]
        | cons y yt =>
          have hyt : jsizeArr (y :: yt) < f := by
            simp only [jsizeArr] at hsz ⊢
            have := jsize_pos x
            omega
          have hrec := ihI (y :: yt) rest (by simp) hyt
          simp only [arrTail, List.cons_append] at hv
          simp [hv, hrec, arrTail]
    · intro ms rest hne hsz
      cases ms with
      | nil => exact absurd rfl hne
      | cons m mt =>
        obtain ⟨k, v⟩ := m
        have hv : jsize v ≤ f := by
          simp only [jsizeObj] at hsz
          omega
        have hnum := numOk_objTail v mt rest
        have hval := ihV v (objTail mt ++ '}' :: rest) hv hnum
        have hshape : serObj ((k, v) :: mt) ++ '}' :: rest =
            '"' :: (escapeChars k.data ++ '"' ::
              (':' :: (serJ v ++ (objTail mt ++ '}' :: rest)))) := by
          rw [serObj_cons]
          simp [serMember, List.append_assoc]
        rw [hshape, parseMembers.eq_def]
        cases mt with
        | nil =>
          simp only [objTail, List.nil_append] at hval
          simp [parseStringBody_escape, hval, objTail]
        | cons p pt =>
          have hpt : jsizeObj (p :: pt) < f := by
            simp only [jsizeObj] at hsz ⊢
            have := jsize_pos v
            omega
          have hrec := ihM (p :: pt) rest (by simp) hpt
          simp only [objTail, List.cons_append] at hval
          simp [parseStringBody_escape, hval, hrec, objTail]

theorem serJ_length_pos (v : JValue) : 1 ≤ (serJ v).length :=
  List.length_pos.mpr (serJ_ne_nil v)

theorem jsize_le_all : ∀ n : Nat,
    (∀ v : JValue, jsize v ≤ n → jsize v + 1 ≤ 2 * (serJ v).length) ∧
    (∀ xs : List JValue, jsizeArr xs ≤ n →
      jsizeArr xs ≤ 2 * (serArr xs).length + 1) ∧
    (∀ ms : List (String × JValue), jsizeObj ms ≤ n →
      jsizeObj ms ≤ 2 * (serObj ms).length + 1) := by
  intro n
  induction n with
  | zero =>
    refine ⟨?_, ?_, ?_⟩
    · intro v hv
      exact absurd hv (by have := jsize_pos v; omega)
    · intro xs hx
      cases xs with
      | nil => simp [jsizeArr]
      | cons a as => simp [jsizeArr] at hx
    · intro ms hm
      cases ms with
      | nil => simp [jsizeObj]
      | cons a as => simp [jsizeObj] at hm
  | succ n ih =>
    obtain ⟨ihJ, ihA, ihO⟩ := ih
    refine ⟨?_, ?_, ?_⟩
    · intro v hv
      cases v with
      | jnull => simp [jsize, serJ]
      | jbool b => cases b <;> simp [jsize, serJ]
      | jnum i =>
        have := serJ_length_pos (.jnum i)
        simp only [jsize]
        omega
      | jstr s =>
        simp [jsize, serJ]
      | jarr xs =>
        have hx : jsizeArr xs ≤ n := by simp [jsize] at hv; omega
        have := ihA xs hx
        simp only [jsize, serJ, List.length_cons, List.length_append]
        simp
        omega
      | jobj ms =>
        have hm : jsizeObj ms ≤ n := by simp [jsize] at hv; omega
        have := ihO ms hm
        simp only [jsize, serJ, List.length_cons, List.length_append]
        simp
        omega
    · intro xs hx
      cases xs with
      | nil => simp [jsizeArr]
      | cons x xt =>
        cases xt with
        | nil =>
          have h1 : jsize x ≤ n := by simp [jsizeArr] at hx; omega
          have := ihJ x h1
          simp only [jsizeArr, serArr]
          omega
        | cons y yt =>
          have h1 : jsize x ≤ n := by
            simp [jsizeArr] at hx
            have := jsize_pos y
            omega
          have h2 : jsizeArr (y :: yt) ≤ n := by
            simp [jsizeArr] at hx ⊢
            have := jsize_pos x
            omega
          have hb1 := ihJ x h1
          have hb2 := ihA (y :: yt) h2
          simp only [jsizeArr, serArr, List.length_append, List.length_cons]
            at hb2 ⊢
          omega
    · intro ms hm
      cases ms with
      | nil => simp [jsizeObj]
      | cons m mt =>
        obtain ⟨k, v⟩ := m
        cases mt with
        | nil =>
          have h1 : jsize v ≤ n := by simp [jsizeObj] at hm; omega
          have := ihJ v h1
          simp only [jsizeObj, serObj, List.length_cons, List.length_append]
          omega
        | cons p pt =>
          have h1 : jsize v ≤ n := by
            simp [jsizeObj] at hm
            have := jsize_pos p.2
            omega
          have h2 : jsizeObj (p :: pt) ≤ n := by
            simp [jsizeObj] at hm ⊢
            have := jsize_pos v
            omega
          have hb1 := ihJ v h1
          have hb2 := ihO (p :: pt) h2
          simp only [jsizeObj, serObj, List.length_append, List.length_cons]
            at hb2 ⊢
          omega

theorem jsize_le (v : JValue) : jsize v + 1 ≤ 2 * (serJ v).length :=
  (jsize_le_all (jsize v)).1 v (Nat.le_refl _)

theorem numOk_nil (v : JValue) : numOk v [] := by
  cases v <;> trivial

theorem Json.parse_serialize (v : JValue) :
    Json.parse (Json.serialize v) = some v := by
  have hfuel : jsize v ≤ 2 * (serJ v).length + 4 := by
    have := jsize_le v
    omega
  have h := (parseVal_ser_all (2 * (serJ v).length + 4)).1 v [] hfuel (numOk_nil v)
  rw [List.append_nil] at h
  unfold Json.parse Json.serialize
  simp only [show (String.mk (serJ v)).data = serJ v from rfl]
  rw [h]

/-! ## Framing round-trip -/

theorem str_nil_append (s : String) : "" ++ s = s := by
  cases s
  rfl

theorem removeNl_serialize (v : JValue) :
    removeNl (Json.serialize v) = Json.serialize v := by
  unfold removeNl Json.serialize
  congr 1
  apply List.filter_eq_self.mpr
  intro c hc
  simp only [decide_eq_true_eq]
  intro he
  subst he
  exact serJ_no_nl v hc

theorem parseChunksGo_zero (c : String) (lines : List String) :
    parseChunksGo 0 c lines = parseChunksGo 0 "" lines := by
  cases lines with
  | nil => rfl
  | cons l rest =>
    rw [parseChunksGo.eq_def]
    rw [show parseChunksGo 0 "" (l :: rest) =
      (if (0 : Int) ≤ 0 then
        match pyIntOfString? l with
        | none => Except.error (.valueError
            ("invalid literal for int() with base 10: " ++ l))
        | some n => parseChunksGo n "" rest
       else
        let l' := removeNl l
        let cc := "" ++ l'
        let cr := (0 : Int) - l'.length - 1
        if cr = 0 then
          match Json.parse cc with
          | none => Except.error .jsonDecodeError
          | some events => (parseChunksGo cr cc rest).map (events :: ·)
        else parseChunksGo cr cc rest) from by rw [parseChunksGo.eq_def]]
    simp

theorem parseChunksGo_data_step (b : JValue) (rest : List String) (L : Int)
    (hL : L = ((Json.serialize b).length : Int) + 1) :
    parseChunksGo L "" (Json.serialize b :: rest) =
      (parseChunksGo 0 "" rest).map (b :: ·) := by
  have hpos : ¬ L ≤ 0 := by omega
  rw [parseChunksGo.eq_def]
  simp [if_neg hpos, removeNl_serialize, str_nil_append, hL,
    Json.parse_serialize, parseChunksGo_zero]

theorem parse_event_chunks_encode (bs : List JValue) :
    parse_event_chunks (encodeBatches bs) = .ok bs := by
  unfold parse_event_chunks
  induction bs with
  | nil => rfl
  | cons b bt ih =>
    have hlen := pyIntOfString_natToDecChars ((Json.serialize b).length + 1)
    have h1 : encodeBatches (b :: bt) =
        String.mk (natToDecChars ((Json.serialize b).length + 1)) ::
        Json.serialize b :: encodeBatches bt := by
      simp [encodeBatches, encodeBatch]
    rw [h1, parseChunksGo.eq_def]
    simp only [hlen, show ((0 : Int) ≤ 0) = True by simp, if_true]
    rw [parseChunksGo_data_step b (encodeBatches bt) _ (by push_cast; ring), ih]
    rfl

/-! ## Error taxonomy of the chunk decoder -/

theorem except_map_error {α β γ : Type} (f : α → β) (x : Except γ α) (e : γ)
    (h : x.map f = .error e) : x = .error e := by
  cases x with
  | ok a => simp [Except.map] at h
  | error e' => simpa [Except.map] using h

theorem parseChunksGo_err_shape :
    ∀ (lines : List String) (rem : Int) (chunk : String) (e : PyErr),
      parseChunksGo rem chunk lines = .error e →
      (∃ m, e = .valueError m) ∨ e = .jsonDecodeError := by
  intro lines
  induction lines with
  | nil =>
    intro rem chunk e h
    rw [parseChunksGo.eq_def] at h
    simp at h
  | cons l rest ih =>
    intro rem chunk e h
    have hstep : parseChunksGo rem chunk (l :: rest) =
        (if rem ≤ 0 then
          match pyIntOfString? l with
          | none => Except.error (.valueError
              ("invalid literal for int() with base 10: " ++ l))
          | some n => parseChunksGo n "" rest
        else
          if rem - ((removeNl l).length : Int) - 1 = 0 then
            match Json.parse (chunk ++ removeNl l) with
            | none => Except.error .jsonDecodeError
            | some events =>
              (parseChunksGo (rem - ((removeNl l).length : Int) - 1)
                (chunk ++ removeNl l) rest).map (events :: ·)
          else
            parseChunksGo (rem - ((removeNl l).length : Int) - 1)
              (chunk ++ removeNl l) rest) := by
      rw [parseChunksGo.eq_def]
    rw [hstep] at h
    split at h
    · split at h
      · injection h with h2
        exact Or.inl ⟨_, h2.symm⟩
      · exact ih _ _ _ h
    · split at h
      · split at h
        · injection h with h2
          exact Or.inr h2.symm
        · exact ih _ _ _ (except_map_error _ _ _ h)
      · exact ih _ _ _ h

/-! ## Claim theorems -/

/-- C1: processing the decoded batch
`[[1,["c","SID1"]], [2,["S","GS1"]],
  [3,["onStateChange",{"currentTime":"1.0","duration":"2.0","state":"1"}]]]`
sets `sid` to `"SID1"`, `gsession` to `"GS1"`, sets `last_event_id` to 3
(the id of the final entry), and dispatches exactly one playback-state
event whose state is `Playing` (with current time 1.0 and duration 2.0),
from any prior client state. -/
theorem claim_C1_batch_processing (st : ClientState) :
    process_events st c1_batch =
      .ok ({ st with
              sid := .jstr "SID1"
              gsession := .jstr "GS1"
              last_event_id := .jnum 3 },
           [.dispatch (.playback_state_changed
             { current_time := 1, duration := 2, state := .Playing })]) := rfl

/-- C10: processing the empty decoded batch `[]` fails with an
`IndexError` when `_process_events` reads the final entry's id
(`events[-1]`), for every client state — even though the chunk decoder
itself can emit an empty batch (the two-line stream `3`, `[]` decodes to
exactly `[[]]`). -/
theorem claim_C10_empty_batch :
    (∀ st : ClientState, process_events st (.jarr []) =
      .error (.indexError "list index out of range")) ∧
    parse_event_chunks ["3", "[]"] = .ok [.jarr []] :=
  ⟨fun _ => rfl, rfl⟩

/-- C3 counterexample: at a concrete bound and linked state, processing
`loungeScreenDisconnected` performs the observer dispatch FIRST and only
then clears the session and the auth token — the action trace starts with
the dispatch, refuting the claim that the resets happen before the
dispatch (the wrapper also holds no PlaybackState field that could be
reset). -/
theorem claim_C3_counterexample :
    process_event bound_state (.jstr "loungeScreenDisconnected")
        [.jobj [("reason", .jstr "disconnectedByUserScreen")]] =
      .ok (lounge_token_expired (connection_lost bound_state),
        [.dispatch (.disconnected { reason := .jstr "disconnectedByUserScreen" }),
         .connectionLost, .tokenExpired]) ∧
    ([Action.dispatch (.disconnected
        { reason := .jstr "disconnectedByUserScreen" }),
      Action.connectionLost, Action.tokenExpired].head? =
      some (.dispatch (.disconnected
        { reason := .jstr "disconnectedByUserScreen" }))) :=
  ⟨rfl, rfl⟩

/-- C3 amended: processing a `loungeScreenDisconnected` event first
dispatches a disconnected event carrying the payload's optional reason and
then clears SessionState (`sid`, `gsession`, `last_event_id`) and the auth
`lounge_id_token`; the client state keeps no PlaybackState, so nothing
else is reset. -/
theorem claim_C3_amended (st : ClientState) (r : String) :
    process_event st (.jstr "loungeScreenDisconnected")
        [.jobj [("reason", .jstr r)]] =
      .ok ({ st with
              sid := .jnull
              gsession := .jnull
              last_event_id := .jnull
              auth := { st.auth with lounge_id_token := .jnull } },
        [.dispatch (.disconnected { reason := .jstr r }),
         .connectionLost, .tokenExpired]) := rfl

/-- C9 counterexample: from the freshly initialized client state, a
decoded batch containing only a `c` control event leaves SessionState
partially populated: `sid` is set while `gsession` is still unset,
refuting the invariant as stated. -/
theorem claim_C9_counterexample :
    process_events (YtLoungeApi.init "test")
        (.jarr [.jarr [.jnum 1, .jarr [.jstr "c", .jstr "SIDonly"]]]) =
      .ok ({ (YtLoungeApi.init "test") with
              sid := .jstr "SIDonly"
              last_event_id := .jnum 1 }, []) ∧
    ({ (YtLoungeApi.init "test") with
        sid := .jstr "SIDonly"
        last_event_id := .jnum 1 } : ClientState).sid ≠ .jnull ∧
    ({ (YtLoungeApi.init "test") with
        sid := .jstr "SIDonly"
        last_event_id := .jnum 1 } : ClientState).gsession = .jnull :=
  ⟨rfl, by decide, rfl⟩

/-- C2 counterexample: a connect response with status 400 and reason
"Unknown SID" leaves the client state completely unchanged (the session
identifiers stay set), refuting the claim that session-loss detection by
status and reason applies uniformly to the connect path. -/
theorem claim_C2_counterexample :
    connect_handle_response bound_state 400 "Unknown SID" "" =
      .ok (bound_state, [], false) ∧
    bound_state.sid ≠ .jnull ∧ bound_state.gsession ≠ .jnull :=
  ⟨rfl, by decide, by decide⟩

/-- C2 amended: `_handle_session_result` implements the status/reason
table — 400 with "Unknown SID" and 410 with "Gone" clear only
SessionState (auth untouched), 401 with "Expired" clears SessionState and
the auth token, anything else changes nothing and reports success.  It is
fed the HTTP reason phrase only on the subscribe path; the command and
disconnect paths feed it the response body text instead; and connect does
not use it at all — there any 401 clears only the auth token and any
other non-200 status is a failure with no state change. -/
theorem claim_C2_amended :
    (∀ (st : ClientState) (reason : String),
      strContains reason "Unknown SID" = true →
        handle_session_result st 400 reason = (connection_lost st, false) ∧
        (connection_lost st).auth = st.auth) ∧
    (∀ (st : ClientState) (reason : String),
      strContains reason "Gone" = true →
        handle_session_result st 410 reason = (connection_lost st, false) ∧
        (connection_lost st).auth = st.auth) ∧
    (∀ (st : ClientState) (reason : String),
      strContains reason "Expired" = true →
        handle_session_result st 401 reason =
          (lounge_token_expired (connection_lost st), false)) ∧
    (∀ (st : ClientState) (status : Int) (reason : String),
      ¬(status = 400 ∧ strContains reason "Unknown SID" = true) →
      ¬(status = 410 ∧ strContains reason "Gone" = true) →
      ¬(status = 401 ∧ strContains reason "Expired" = true) →
        handle_session_result st status reason = (st, true)) ∧
    (∀ (st : ClientState) (reason body : String),
      connect_handle_response st 401 reason body =
        .ok (lounge_token_expired st, [Action.tokenExpired], false)) ∧
    (∀ (st : ClientState) (status : Int) (reason body : String),
      status ≠ 401 → status ≠ 200 →
        connect_handle_response st status reason body = .ok (st, [], false)) ∧
    (∀ (st : ClientState) (reason : String) (lines : List String),
      strContains reason "Unknown SID" = true →
        subscribe_handle_response st 400 (some reason) lines =
          .ok (connection_lost st, [])) ∧
    (∀ (st : ClientState) (text : String),
      strContains text "Unknown SID" = true →
        command_handle_response st 400 text =
          .ok (connection_lost st, false)) ∧
    (∀ (st : ClientState) (text : String),
      strContains text "Unknown SID" = true →
        disconnect_handle_response st 400 text =
          .ok (connection_lost st, false)) := by
  refine ⟨?_, ?_, ?_, ?_, ?_, ?_, ?_, ?_, ?_⟩
  · intro st reason h
    exact ⟨by simp [handle_session_result, h], rfl⟩
  · intro st reason h
    exact ⟨by simp [handle_session_result, h], rfl⟩
  · intro st reason h
    simp [handle_session_result, h]
  · intro st status reason h1 h2 h3
    unfold handle_session_result
    rw [if_neg h1, if_neg h2, if_neg h3]
  · intro st reason body
    simp [connect_handle_response]
  · intro st status reason body h1 h2
    simp [connect_handle_response, h1, h2]
  · intro st reason lines h
    simp [subscribe_handle_response, handle_session_result, h]
  · intro st text h
    simp [command_handle_response, handle_session_result, h]
  · intro st text h
    simp [disconnect_handle_response, handle_session_result, h]

/-- C2 witness: the amended session-loss rules evaluated at concrete
responses. -/
theorem claim_C2_witness :
    handle_session_result (YtLoungeApi.init "w") 400 "400 Unknown SID" =
      (connection_lost (YtLoungeApi.init "w"), false) ∧
    handle_session_result (YtLoungeApi.init "w") 500 "Internal Server Error" =
      (YtLoungeApi.init "w", true) ∧
    command_handle_response (YtLoungeApi.init "w") 400 "400 Unknown SID" =
      .ok (connection_lost (YtLoungeApi.init "w"), false) :=
  ⟨(claim_C2_amended.1 _ _ (by decide)).1,
   claim_C2_amended.2.2.2.1 _ 500 _ (by decide) (by decide) (by decide),
   claim_C2_amended.2.2.2.2.2.2.2.1 _ _ (by decide)⟩

/-- C4 counterexample: loading a persisted record whose version is 1
(not the recognized version 0) succeeds — it returns the freshly
initialized auth state and reports no error, refuting the claim that
deserialization of an unknown version fails. -/
theorem claim_C4_counterexample :
    load_auth_state (YtLoungeApi.init "test")
        [("version", .jnum 1), ("screenId", .jstr "screen123")] =
      .ok { (YtLoungeApi.init "test") with auth := AuthState.init } := rfl

/-- C4 amended: loading a record whose version key is present but is not
the current version silently succeeds, leaving the auth state at its
freshly initialized defaults; only a record missing the version key
fails, and then with a `KeyError`, not a version error. -/
theorem claim_C4_amended :
    (∀ (st : ClientState) (data : List (String × JValue)) (v : JValue),
      lookupLast data "version" = some v →
      v ≠ .jnum CURRENT_AUTH_VERSION →
        load_auth_state st data = .ok { st with auth := AuthState.init }) ∧
    (∀ (st : ClientState) (data : List (String × JValue)),
      lookupLast data "version" = none →
        load_auth_state st data = .error (.keyError "version")) := by
  constructor
  · intro st data v hv hne
    unfold load_auth_state AuthState.deserialize
    rw [hv]
    simp [hne, Except.map]
  · intro st data h
    unfold load_auth_state AuthState.deserialize
    rw [h]
    rfl

/-- C4 witness: the amended loading behavior evaluated at concrete
records. -/
theorem claim_C4_witness :
    load_auth_state (YtLoungeApi.init "w") [("version", .jnum 7)] =
      .ok { (YtLoungeApi.init "w") with auth := AuthState.init } ∧
    load_auth_state (YtLoungeApi.init "w") [("expiry", .jnum 3)] =
      .error (.keyError "version") :=
  ⟨claim_C4_amended.1 _ _ _ rfl (by decide),
   claim_C4_amended.2 _ _ rfl⟩

/-- C5 counterexample: at a concrete linked state, `store_auth_state`
produces a record with exactly the keys `screenId`, `lounge_id_token`,
`refresh_token` — not the claimed
`{version, screenId, loungeIdToken, refreshToken, expiry}` — and feeding
that record back into `load_auth_state` raises `KeyError("version")`
instead of restoring the state. -/
theorem claim_C5_counterexample :
    (store_auth_state bound_state).map Prod.fst =
      ["screenId", "lounge_id_token", "refresh_token"] ∧
    (store_auth_state bound_state).map Prod.fst ≠
      ["version", "screenId", "loungeIdToken", "refreshToken", "expiry"] ∧
    load_auth_state bound_state (store_auth_state bound_state) =
      .error (.keyError "version") :=
  ⟨rfl, by decide, rfl⟩

/-- C5 amended: for every auth state, `store_auth_state` produces a
record with exactly the keys `screenId`, `lounge_id_token` and
`refresh_token` (no version and no expiry), and applying
`load_auth_state` to that record always fails with `KeyError("version")`
— the store/load pair never round-trips. -/
theorem claim_C5_amended (st st' : ClientState) :
    (store_auth_state st).map Prod.fst =
      ["screenId", "lounge_id_token", "refresh_token"] ∧
    load_auth_state st' (store_auth_state st) = .error (.keyError "version") :=
  ⟨rfl, rfl⟩

/-- C6: framing a sequence of batches with the length-prefixed encoding
(a decimal length line counting the chunk's characters plus its
terminating newline, then the chunk's JSON on one line) and decoding the
resulting line stream with `_parse_event_chunks` reproduces the original
batches exactly; re-encoding the decoded batches therefore reproduces
the original line stream byte for byte. -/
theorem claim_C6_roundtrip (bs : List JValue) :
    parse_event_chunks (encodeBatches bs) = .ok bs :=
  parse_event_chunks_encode bs

/-- C7 counterexample: a malformed length line fails with a `ValueError`
and a chunk that is not valid JSON fails with a `JSONDecodeError` — both
Python builtins; the library's exceptions module defines no
`ProtocolFramingError` at all, refuting the claimed error kind. -/
theorem claim_C7_counterexample :
    parse_event_chunks ["x"] =
      .error (.valueError "invalid literal for int() with base 10: x") ∧
    parse_event_chunks ["2", "\x7b"] = .error .jsonDecodeError ∧
    "ProtocolFramingError" ∉ exceptions_module_classes :=
  ⟨rfl, rfl, by decide⟩

/-- C7 amended: a malformed length line fails the decode with
`ValueError` (from `int(...)`), a complete chunk that is not valid JSON
fails it with `JSONDecodeError` (from `json.loads`), these two are the
only error kinds the decoder can produce, and no `ProtocolFramingError`
class exists in the library. -/
theorem claim_C7_amended :
    (∀ (rem : Int) (chunk line : String) (rest : List String),
      rem ≤ 0 → pyIntOfString? line = none →
        parseChunksGo rem chunk (line :: rest) =
          .error (.valueError
            ("invalid literal for int() with base 10: " ++ line))) ∧
    (∀ (rem : Int) (chunk line : String) (rest : List String),
      ¬ rem ≤ 0 → rem - ((removeNl line).length : Int) - 1 = 0 →
      Json.parse (chunk ++ removeNl line) = none →
        parseChunksGo rem chunk (line :: rest) = .error .jsonDecodeError) ∧
    (∀ (lines : List String) (e : PyErr),
      parse_event_chunks lines = .error e →
        (∃ m, e = .valueError m) ∨ e = .jsonDecodeError) ∧
    "ProtocolFramingError" ∉ exceptions_module_classes := by
  refine ⟨?_, ?_, ?_, by decide⟩
  · intro rem chunk line rest h1 h2
    rw [parseChunksGo.eq_def]
    simp [h1, h2]
  · intro rem chunk line rest h1 h2 h3
    rw [parseChunksGo.eq_def]
    simp [h1, h2, h3]
  · intro lines e h
    exact parseChunksGo_err_shape lines 0 "" e h

/-- C7 witness: the amended failure modes evaluated on concrete line
streams. -/
theorem claim_C7_witness :
    pyIntOfString? "x" = none ∧
    parseChunksGo 0 "" ["x"] =
      .error (.valueError "invalid literal for int() with base 10: x") ∧
    Json.parse ("" ++ removeNl "\x7b") = none ∧
    parseChunksGo 2 "" ["\x7b"] = .error .jsonDecodeError :=
  ⟨rfl, claim_C7_amended.1 0 "" "x" [] (by decide) rfl,
   rfl, claim_C7_amended.2.1 2 "" "\x7b" [] (by decide) (by decide) rfl⟩

theorem lookupLast_append (A B : List (String × JValue)) (k : String) :
    lookupLast (A ++ B) k =
      match lookupLast B k with
      | some w => some w
      | none => lookupLast A k := by
  induction A with
  | nil =>
    cases h : lookupLast B k <;> simp [lookupLast, h]
  | cons a A ih =>
    simp only [List.cons_append, lookupLast, ih]
    cases h : lookupLast B k <;> cases h2 : lookupLast A k <;>
      simp [lookupLast, h, h2, ih]

theorem lookupLast_req0_none (ps : List (String × JValue)) (k : String)
    (hk : ∀ s, ¬ "req0_" ++ s = k) :
    lookupLast (ps.map (fun m => ("req0_" ++ m.1, m.2))) k = none := by
  induction ps with
  | nil => rfl
  | cons p pt ih =>
    simp [lookupLast, ih, hk p.1]

/-- C8 counterexample: issuing a command from a freshly bound state
(sequence value 1) produces a request whose body field `ofs` is 1 but
whose `RID` query parameter is 2 — the increment happens between the two
— refuting the claim that both carry the same sequence number. -/
theorem claim_C8_counterexample :
    (command_build bound_state "play" []).map
      (fun p => (lookupLast p.2.body "ofs", lookupLast p.2.params "RID",
        p.1.command_offset)) =
      .ok (some (.jnum 1), some (.jnum 2), 2) ∧
    (JValue.jnum 1) ≠ (JValue.jnum 2) :=
  ⟨rfl, by decide⟩

/-- C8 amended: the outbound command sequence starts at 1; every
successfully built command request carries the pre-increment sequence
value as the body field `ofs` and the post-increment value (`ofs` + 1) as
the `RID` query parameter, with the stored sequence incremented exactly
once; disconnect builds its request with the current sequence value as
`RID` and does not increment it. -/
theorem claim_C8_amended :
    (∀ d : String, (YtLoungeApi.init d).command_offset = 1) ∧
    (∀ (st st' : ClientState) (cmd : String)
      (ps : List (String × JValue)) (req : Request),
      command_build st cmd ps = .ok (st', req) →
        lookupLast req.body "ofs" = some (.jnum st.command_offset) ∧
        lookupLast req.params "RID" =
          some (.jnum (st.command_offset + 1)) ∧
        st'.command_offset = st.command_offset + 1) ∧
    (∀ (st st' : ClientState) (req : Request),
      disconnect_build st = .ok (st', req) →
        lookupLast req.params "RID" = some (.jnum st.command_offset) ∧
        st'.command_offset = st.command_offset) := by
  refine ⟨fun d => rfl, ?_, ?_⟩
  · intro st st' cmd ps req h
    unfold command_build at h
    by_cases hc : connected st
    · rw [if_neg (by simp [hc])] at h
      injection h with h
      injection h with h1 h2
      subst h1
      subst h2
      refine ⟨?_, ?_, rfl⟩
      · rw [lookupLast_append, lookupLast_req0_none]
        · rfl
        · intro s he
          have hlen := congrArg String.length he
          rw [String.length_append] at hlen
          rw [show ("req0_" : String).length = 5 from rfl,
            show ("ofs" : String).length = 3 from rfl] at hlen
          omega
      · rw [lookupLast_append]
        rfl
    · rw [if_pos (by simp [hc])] at h
      exact absurd h (by simp)
  · intro st st' req h
    unfold disconnect_build at h
    by_cases hc : connected st
    · rw [if_neg (by simp [hc])] at h
      injection h with h
      injection h with h1 h2
      subst h1
      subst h2
      refine ⟨?_, rfl⟩
      rw [lookupLast_append]
      rfl
    · rw [if_pos (by simp [hc])] at h
      exact absurd h (by simp)

/-- C8 witness: the amended sequencing behavior evaluated at the concrete
bound state (sequence value 1): the built command request carries
`ofs = 1` and `RID = 2` and stores sequence 2, and the built disconnect
request carries `RID = 1` with the sequence unchanged. -/
theorem claim_C8_witness :
    (YtLoungeApi.init "w").command_offset = 1 ∧
    (lookupLast ([("count", JValue.jnum 1), ("ofs", JValue.jnum 1),
        ("req0__sc", JValue.jstr "play")] : List (String × JValue)) "ofs" =
        some (JValue.jnum 1) ∧
     lookupLast (common_connection_parameters
        { bound_state with command_offset := 2 } ++
        [("RID", JValue.jnum 2)]) "RID" = some (JValue.jnum 2) ∧
     ({ bound_state with command_offset := 2 } : ClientState).command_offset
       = 2) ∧
    (lookupLast (common_connection_parameters bound_state ++
        [("CVER", JValue.jstr "1"), ("RID", JValue.jnum 1),
         ("auth_failure_option", JValue.jstr "send_error")]) "RID" =
        some (JValue.jnum 1) ∧
     bound_state.command_offset = 1) :=
  ⟨claim_C8_amended.1 "w",
   claim_C8_amended.2.1 bound_state { bound_state with command_offset := 2 }
     "play" []
     { url := api_base ++ "/bc/bind"
       params := common_connection_parameters
         { bound_state with command_offset := 2 } ++ [("RID", JValue.jnum 2)]
       body := [("count", JValue.jnum 1), ("ofs", JValue.jnum 1),
         ("req0__sc", JValue.jstr "play")] } rfl,
   claim_C8_amended.2.2 bound_state bound_state
     { url := api_base ++ "/bc/bind"
       params := common_connection_parameters bound_state ++
         [("CVER", JValue.jstr "1"), ("RID", JValue.jnum 1),
          ("auth_failure_option", JValue.jstr "send_error")]
       body := [("ui", JValue.jstr ""), ("TYPE", JValue.jstr "terminate"),
         ("clientDisconnectReason",
          JValue.jstr "MDX_SESSION_DISCONNECT_REASON_DISCONNECTED_BY_USER")] }
     rfl⟩

/-- C9 amended: the clearing paths preserve the both-or-neither shape —
`_handle_session_result` either leaves both session identifiers untouched
or clears both (along with `last_event_id`), and `_connection_lost`
always clears all three together; but batch processing can set `sid` and
`gsession` independently, so SessionState can be partially populated
after a batch that carries a `c` without an `S`. -/
theorem claim_C9_amended :
    (∀ (st : ClientState) (status : Int) (reason : String),
      ((handle_session_result st status reason).1.sid = st.sid ∧
       (handle_session_result st status reason).1.gsession = st.gsession) ∨
      ((handle_session_result st status reason).1.sid = .jnull ∧
       (handle_session_result st status reason).1.gsession = .jnull)) ∧
    (∀ st : ClientState, (connection_lost st).sid = .jnull ∧
      (connection_lost st).gsession = .jnull ∧
      (connection_lost st).last_event_id = .jnull) := by
  constructor
  · intro st status reason
    unfold handle_session_result
    split_ifs <;> simp [connection_lost, lounge_token_expired]
  · intro st
    exact ⟨rfl, rfl, rfl⟩

end PyYt
